import Mathlib

/-
Verification development for the gait-analysis core
(backend/app/services/environmental_robustness.py,
 backend/app/services/metrics_calculator.py,
 backend/app/services/quality_gate.py,
 backend/app/core/config.py).

A keypoint sequence of numpy shape (frames, joints, 3) is embedded as a
list of frames, each frame a list of (x, y, z) triples.  numpy arrays are
rectangular, so shape-dependent code is stated under a rectangularity
predicate.  Machine floats are modelled by an arbitrary linear ordered
field K; components whose code is norm-free are used at K = Rat (fully
executable), components that take square roots (numpy linalg.norm used as
a value rather than only in comparisons) are used at K = Real.  Comparisons
of a Euclidean norm against a nonnegative threshold t are encoded as the
equivalent comparison of the squared norm against t^2, keeping those
components executable.  Python float infinities/NaN are outside the model;
the claims under study quantify over finite data only.

Failure modelling: a Python exception (numpy broadcast error, IndexError,
reduction of an empty array, ...) is embedded as Option.none; successful
evaluation returns some.
-/

namespace GaitModel

/-- A 3D point (x, y, z), the innermost axis of a (frames, joints, 3) array. -/
abbrev Vec3 (K : Type) := K × K × K

/-- One frame: the joint axis of the array. -/
abbrev Frame (K : Type) := List (Vec3 K)

/-- A keypoint sequence: the frame axis of the array. -/
abbrev Seq3 (K : Type) := List (Frame K)

/-- numpy arrays are rectangular: every frame holds exactly `j` joints. -/
def Rect {K : Type} (kps : Seq3 K) (j : ℕ) : Prop :=
  ∀ fr ∈ kps, fr.length = j

instance {K : Type} [DecidableEq K] (kps : Seq3 K) (j : ℕ) :
    Decidable (Rect kps j) := by
  unfold Rect; infer_instance

variable {K : Type} [LinearOrderedField K]

/-- Python `keypoints.shape[1]`: the joint count, read off the first frame
(for rectangular data this is the numpy shape). -/
def numJoints (kps : Seq3 K) : ℕ :=
  match kps with
  | [] => 0
  | fr :: _ => fr.length

/-- Column extraction `keypoints[:, j, :]`.  For rectangular data every
frame has the joint, so `filterMap` extracts exactly one point per frame. -/
def column (j : ℕ) (kps : Seq3 K) : List (Vec3 K) :=
  kps.filterMap (fun fr => fr.get? j)

/-- Column of z coordinates `keypoints[:, j, 2]`. -/
def columnZ (j : ℕ) (kps : Seq3 K) : List K :=
  (column j kps).map (fun p => p.2.2)

/-- Squared Euclidean distance of two 3D points; used to encode
comparisons of `np.linalg.norm(q - p)` against nonnegative thresholds. -/
def dist3Sq (p q : Vec3 K) : K :=
  (q.1 - p.1) ^ 2 + (q.2.1 - p.2.1) ^ 2 + (q.2.2 - p.2.2) ^ 2

/-- Python `np.diff` along the frame axis, as consecutive pairs. -/
def consecPairs {α : Type} (l : List α) : List (α × α) :=
  l.zip l.tail

/-- Insert into a sorted list (stable: equal keys keep original order). -/
def sortedInsert (x : K) : List K → List K
  | [] => [x]
  | y :: ys => if x < y then x :: y :: ys else y :: sortedInsert x ys

/-- Ascending sort (insertion sort).  numpy sorts ascending before
computing a percentile; the sorting algorithm itself is irrelevant to the
result, only the sorted order is. -/
def sortAsc (l : List K) : List K :=
  l.foldr sortedInsert []

/-- Python `np.percentile(values, 5)` with numpy's default linear interpolation:
with ascending sorted data a of length m, the result is
`a[i] + frac * (a[i+1] - a[i])` where `i + frac = 0.05 * (m - 1)`.
Since 5/100 = 1/20, `i = (m-1) / 20` and `frac = ((m-1) % 20) / 20`. -/
def percentile5 (values : List K) : K :=
  let a := sortAsc values
  let m := a.length
  let i := (m - 1) / 20
  let frac : K := ((m - 1) % 20 : ℕ) / 20
  let lo := a.getD i 0
  let hi := a.getD (i + 1) lo
  lo + frac * (hi - lo)

/-! ## ScaleCalibrator (environmental_robustness.py lines 15-123)

State: `reference_length_pixels`, `reference_length_mm`, `scale_factor`
(mm per pixel), the last one `None` until a calibration succeeds. -/

structure ScaleCalibratorState (K : Type) where
  reference_length_pixels : Option K
  reference_length_mm : K
  scale_factor : Option K

/-- Python `ScaleCalibrator.__init__`: no reference seen yet; the default
reference length is `settings.DEFAULT_REFERENCE_LENGTH_MM = 210.0`
(config, A4 paper width). -/
def scaleCalibratorInit : ScaleCalibratorState K :=
  { reference_length_pixels := none
    reference_length_mm := 210
    scale_factor := none }

/-- Python `calibrate_from_reference`: store the reference and set
`scale_factor = reference_length_mm / reference_length_pixels`. -/
def calibrate_from_reference (st : ScaleCalibratorState K)
    (reference_length_pixels reference_length_mm : K) : ScaleCalibratorState K :=
  { reference_length_pixels := some reference_length_pixels
    reference_length_mm := reference_length_mm
    scale_factor := some (reference_length_mm / reference_length_pixels) }

/-- Python `pixel_to_mm`: multiply by the scale factor; uncalibrated state
returns the input unchanged (with a logged warning). -/
def pixel_to_mm (st : ScaleCalibratorState K) (pixel_distance : K) : K :=
  match st.scale_factor with
  | none => pixel_distance
  | some s => pixel_distance * s

/-- Python `mm_to_pixel`: divide by the scale factor; uncalibrated state
returns the input unchanged. -/
def mm_to_pixel (st : ScaleCalibratorState K) (mm_distance : K) : K :=
  match st.scale_factor with
  | none => mm_distance
  | some s => mm_distance / s

/-! ## KalmanDenoiser (environmental_robustness.py lines 126-217)

One constant-velocity Kalman filter per joint: state (x, y, vx, vy),
measurement (x, y).  Matrices are lists of rows; `inv2` is the exact
inverse of the 2x2 innovation matrix (numpy `linalg.inv`; the innovation
matrix `S = H P Ht + R` is positive definite for the covariances used, so
the singular case - where numpy would raise - does not arise). -/

/-- Dot product of two equal-length vectors. -/
def dotv (a b : List K) : K :=
  ((a.zip b).map (fun p => p.1 * p.2)).sum

/-- Matrix transpose. -/
def mTranspose (A : List (List K)) : List (List K) :=
  List.transpose A

/-- Matrix product. -/
def mMul (A B : List (List K)) : List (List K) :=
  A.map (fun r => (List.transpose B).map (fun c => dotv r c))

/-- Entrywise matrix sum. -/
def mAdd (A B : List (List K)) : List (List K) :=
  List.zipWith (List.zipWith (· + ·)) A B

/-- Entrywise matrix difference. -/
def mSub (A B : List (List K)) : List (List K) :=
  List.zipWith (List.zipWith (· - ·)) A B

/-- Matrix-vector product. -/
def mVec (A : List (List K)) (v : List K) : List K :=
  A.map (fun r => dotv r v)

/-- Python `np.eye(n) * c`. -/
def eyeScaled (n : ℕ) (c : K) : List (List K) :=
  (List.range n).map (fun i =>
    (List.range n).map (fun j => if i = j then c else 0))

/-- Exact inverse of a 2x2 matrix (adjugate over determinant). -/
def inv2 (S : List (List K)) : List (List K) :=
  match S with
  | [[a, b], [c, d]] =>
    let det := a * d - b * c
    [[d / det, -b / det], [-c / det, a / det]]
  | _ => []

/-- State transition matrix F (constant velocity model). -/
def kfF : List (List K) := [[1,0,1,0],[0,1,0,1],[0,0,1,0],[0,0,0,1]]

/-- Measurement matrix H. -/
def kfH : List (List K) := [[1,0,0,0],[0,1,0,0]]

/-- Per-joint Kalman filter state.  `F`, `H`, `Q` are the fixed matrices
of `_create_filter`; the mutable fields are the state estimate `x`, the
covariance `P` and the measurement noise `R` (rescaled per sample from
the confidence). -/
structure KFState (K : Type) where
  x : List K
  P : List (List K)
  R : List (List K)

/-- Python `_create_filter` followed by the per-sequence reset of
`denoise_sequence` (x = 0, P = 100 I); R = 0.1 I as constructed
(a fresh denoiser, as built by a fresh service). -/
def kfInit : KFState K :=
  { x := [0, 0, 0, 0]
    P := eyeScaled 4 100
    R := eyeScaled 2 (1 / 10) }

/-- Python `kf.predict()`:  x := F x,  P := F P Ft + Q  with
Q = process_noise * I and the default process noise 0.01. -/
def kfPredict (kf : KFState K) : KFState K :=
  { kf with
    x := mVec kfF kf.x
    P := mAdd (mMul (mMul kfF kf.P) (mTranspose kfF)) (eyeScaled 4 (1 / 100)) }

/-- Python `kf.update(z)` (filterpy):  y = z - H x,  S = H P Ht + R,
Kg = P Ht S^-1,  x := x + Kg y,  P := (I - Kg H) P (I - Kg H)t + Kg R Kgt. -/
def kfUpdate (z : K × K) (kf : KFState K) : KFState K :=
  let y := List.zipWith (· - ·) [z.1, z.2] (mVec kfH kf.x)
  let S := mAdd (mMul (mMul kfH kf.P) (mTranspose kfH)) kf.R
  let Kg := mMul (mMul kf.P (mTranspose kfH)) (inv2 S)
  let x1 := List.zipWith (· + ·) kf.x (mVec Kg y)
  let IKH := mSub (eyeScaled 4 1) (mMul Kg kfH)
  { kf with
    x := x1
    P := mAdd (mMul (mMul IKH kf.P) (mTranspose IKH))
              (mMul (mMul Kg kf.R) (mTranspose Kg)) }

/-- One joint of the inner loop of `denoise_sequence`: optionally rescale
R from the confidence (`R = I * (0.1 / max(conf, 0.1))`), then
predict-and-update on the (x, y) measurement; emit the filtered (x, y). -/
def kfStep (conf : Option K) (z : K × K) (kf : KFState K) :
    (K × K) × KFState K :=
  let kf1 :=
    match conf with
    | none => kf
    | some c => { kf with R := eyeScaled 2 ((1 / 10) / max c (1 / 10)) }
  let kf2 := kfUpdate z (kfPredict kf1)
  ((kf2.x.getD 0 0, kf2.x.getD 1 0), kf2)

/-- Lookup `confidence[frame_idx, joint_idx]`.  `confidence is None`
yields `some none` (no R rescaling); an out-of-range index is the
IndexError the numpy indexing would raise, i.e. `none`. -/
def confLookup (conf : Option (List (List K))) (f j : ℕ) : Option (Option K) :=
  match conf with
  | none => some none
  | some rows => ((rows.get? f).bind (fun row => row.get? j)).map some

/-- The joint loop of one frame of `denoise_sequence`, dims = 2 branch:
`for joint_idx in range(num_joints): kf = self.filters[joint_idx]; ...`.
Exhausting the filter list while joints remain models the IndexError
`self.filters[joint_idx]` raises when the input has more joints than the
denoiser was built for (`num_joints` filters, default 17). -/
def denoiseFrameAux2 (conf : Option (List (List K))) (f : ℕ) :
    ℕ → List (K × K) → List (KFState K) →
    Option (List (K × K) × List (KFState K))
  | _, [], kfs => some ([], kfs)
  | _, _ :: _, [] => none
  | j, z :: zs, kf :: kfs =>
    match confLookup conf f j with
    | none => none
    | some c =>
      let r := kfStep c z kf
      match denoiseFrameAux2 conf f (j + 1) zs kfs with
      | none => none
      | some (outs, kfs2) => some (r.1 :: outs, r.2 :: kfs2)

/-- The joint loop of one frame of `denoise_sequence`, dims = 3 branch:
the measurement is the (x, y) part of the joint, the filtered (x, y) is
emitted and the z coordinate is copied through unfiltered. -/
def denoiseFrameAux3 (conf : Option (List (List K))) (f : ℕ) :
    ℕ → Frame K → List (KFState K) →
    Option (Frame K × List (KFState K))
  | _, [], kfs => some ([], kfs)
  | _, _ :: _, [] => none
  | j, p :: ps, kf :: kfs =>
    match confLookup conf f j with
    | none => none
    | some c =>
      let r := kfStep c (p.1, p.2.1) kf
      match denoiseFrameAux3 conf f (j + 1) ps kfs with
      | none => none
      | some (outs, kfs2) =>
        some ((r.1.1, r.1.2, p.2.2) :: outs, r.2 :: kfs2)

/-- The frame loop of `denoise_sequence` (dims = 2): filters updated in
joint order persist to the next frame. -/
def denoiseSeqAux2 (conf : Option (List (List K))) :
    ℕ → List (List (K × K)) → List (KFState K) →
    Option (List (List (K × K)))
  | _, [], _ => some []
  | f, fr :: frs, kfs =>
    match denoiseFrameAux2 conf f 0 fr kfs with
    | none => none
    | some (outFr, kfs2) =>
      match denoiseSeqAux2 conf (f + 1) frs kfs2 with
      | none => none
      | some outs => some (outFr :: outs)

/-- The frame loop of `denoise_sequence` (dims = 3). -/
def denoiseSeqAux3 (conf : Option (List (List K))) :
    ℕ → Seq3 K → List (KFState K) →
    Option (Seq3 K)
  | _, [], _ => some []
  | f, fr :: frs, kfs =>
    match denoiseFrameAux3 conf f 0 fr kfs with
    | none => none
    | some (outFr, kfs2) =>
      match denoiseSeqAux3 conf (f + 1) frs kfs2 with
      | none => none
      | some outs => some (outFr :: outs)

/-- Python `KalmanDenoiser.denoise_sequence` on a (frames, joints, 2) input:
reset all `numFilters` filters (x = 0, P = 100 I), then run
predict-then-update per frame per joint.  `numFilters` is the
constructor's `num_joints` (default 17). -/
def denoise_sequence2 (numFilters : ℕ) (kps2 : List (List (K × K)))
    (conf : Option (List (List K))) : Option (List (List (K × K))) :=
  denoiseSeqAux2 conf 0 kps2 (List.replicate numFilters kfInit)

/-- Python `KalmanDenoiser.denoise_sequence` on a (frames, joints, 3) input:
as above, and every z coordinate passes through unfiltered. -/
def denoise_sequence3 (numFilters : ℕ) (kps : Seq3 K)
    (conf : Option (List (List K))) : Option (Seq3 K) :=
  denoiseSeqAux3 conf 0 kps (List.replicate numFilters kfInit)

/-! ## FootContactConstraint (environmental_robustness.py lines 220-335)

State: `ground_plane_z`, `None` until estimated. -/

/-- Python `estimate_ground_plane`: collect the z values of the ankle joints
(indices 15 and 16, where present) across the sequence and take their
5th percentile.  When no ankle values exist the Python method returns
0.0 WITHOUT setting `self.ground_plane_z`; that case is `none` here. -/
def estimate_ground_plane (kps : Seq3 K) : Option K :=
  let nj := numJoints kps
  let ankle_z :=
    (if 15 < nj then columnZ 15 kps else []) ++
    (if 16 < nj then columnZ 16 kps else [])
  if ankle_z.isEmpty then none else some (percentile5 ankle_z)

/-- Python `self.ground_plane_z` after the `if self.ground_plane_z is None:
self.estimate_ground_plane(...)` idiom. -/
def resolveGround (st : Option K) (kps : Seq3 K) : Option K :=
  match st with
  | some g => some g
  | none => estimate_ground_plane kps

/-- numpy broadcasting of `a & b` for two 1-D boolean arrays: defined
when the lengths agree or one of them is 1 (which is stretched);
any other combination raises, i.e. `none`. -/
def broadcastAnd (a b : List Bool) : Option (List Bool) :=
  if a.length = b.length then some (List.zipWith and a b)
  else if a.length = 1 then some (b.map (fun y => a.headD false && y))
  else if b.length = 1 then some (a.map (fun x => x && b.headD false))
  else none

/-- One foot of `detect_contact` (the loop body for one `ankle_idx`,
assumed present, i.e. `ankle_idx < keypoints_3d.shape[1]`):

* `velocity_magnitude = norm(diff(ankle_pos, axis=0), axis=1)`
  (length n-1); its comparison with the nonnegative threshold t is
  encoded as squared magnitude against t^2;
* the ground plane is estimated if still unknown (`none` marks the
  unreachable TypeError of subtracting a `None` ground);
* `z_distance = abs(ankle_pos[:, 2] - ground)` (length n);
* `contact = (velocity_magnitude < t) & (z_distance < 20.0)` - a numpy
  broadcast of arrays of length n-1 and n;
* the column write `contact_flags[1:, i] = contact` requires
  `contact` to have exactly n-1 entries, else numpy raises;
* `contact_flags[0, i] = contact[0] if len(contact) > 0 else False`.

The returned list is the per-frame flag column for this foot, together
with the (possibly updated) ground state. -/
def detectFoot (st : Option K) (kps : Seq3 K) (ankle : ℕ) (t : K) :
    Option (K × List Bool) :=
  let col := column ankle kps
  let vsq := (consecPairs col).map (fun pq => dist3Sq pq.1 pq.2)
  match resolveGround st kps with
  | none => none
  | some g =>
    let zd := col.map (fun p => |p.2.2 - g|)
    let vb := vsq.map (fun v => decide (v < t ^ 2))
    let zb := zd.map (fun d => decide (d < 20))
    match broadcastAnd vb zb with
    | none => none
    | some contact =>
      if contact.length = col.length - 1 then
        match col with
        | [] => some (g, [])
        | _ :: _ => some (g, contact.headD false :: contact)
      else none

/-- Python `detect_contact(keypoints_3d, ankle_velocity_threshold=50.0)`:
a (frames, 2) boolean array, column 0 for the left ankle (joint 15),
column 1 for the right ankle (joint 16); a missing ankle joint leaves
its column all False (`continue`).  Returns the flag array together
with the new `ground_plane_z` state. -/
def detect_contact (st : Option K) (kps : Seq3 K) (t : K) :
    Option (Option K × List (Bool × Bool)) :=
  let n := kps.length
  let nj := numJoints kps
  if 15 < nj then
    match detectFoot st kps 15 t with
    | none => none
    | some (g, c0) =>
      if 16 < nj then
        match detectFoot (some g) kps 16 t with
        | none => none
        | some (g2, c1) => some (some g2, c0.zip c1)
      else some (some g, c0.map (fun b => (b, false)))
  else some (st, List.replicate n (false, false))

/-- Set the z coordinate of joint `j` of a frame (in-range assignment;
numpy never sees an out-of-range index here because the caller checks
the joint against the shape). -/
def setZ (j : ℕ) (g : K) (fr : Frame K) : Frame K :=
  match fr.get? j with
  | none => fr
  | some p => fr.set j (p.1, p.2.1, g)

/-- One foot of the constraint loop body: if the ankle joint exists and
the foot is flagged in contact, clamp the ankle z to the ground plane,
and also the toe proxy `toe_idx = ankle_idx - 2` (which exists whenever
the ankle does, and in the 17-point layout is the knee). -/
def applyFoot (g : K) (nj : ℕ) (ankle : ℕ) (flag : Bool) (fr : Frame K) :
    Frame K :=
  if ankle < nj then
    if flag then
      let fr1 := setZ ankle g fr
      if ankle - 2 < nj then setZ (ankle - 2) g fr1 else fr1
    else fr
  else fr

/-- The per-frame body of `apply_contact_constraints`: left foot
(ankle 15, flag column 0) then right foot (ankle 16, flag column 1). -/
def constrainFrame (g : K) (nj : ℕ) (fl : Bool × Bool) (fr : Frame K) :
    Frame K :=
  applyFoot g nj 16 fl.2 (applyFoot g nj 15 fl.1 fr)

/-- Per-frame step of `apply_contact_constraints`, with its failure
modes: reading `contact_flags[frame_idx, i]` past the end of the flag
array is an IndexError; a frame reached with an ankle joint present but
no ground plane value cannot happen (the estimate succeeds whenever an
ankle column is nonempty) and is modelled as an error as numpy would
raise assigning `None` into a float array. -/
def constrainFrameOpt (st : Option K) (nj : ℕ) (flag : Option (Bool × Bool))
    (fr : Frame K) : Option (Frame K) :=
  if 15 < nj then
    match flag, st with
    | some fl, some g => some (constrainFrame g nj fl fr)
    | _, _ => none
  else some fr

/-- Python `apply_contact_constraints(keypoints_3d, contact_flags)`: first make
sure a ground plane is available (estimating it from the input if the
state is still `None`), then walk the frames clamping flagged feet.
`contact_flags=None` leaves every frame unchanged (the flag test is
short-circuited).  The input is copied, never mutated - immediate in
this functional embedding.  Returns the new ground state and the
constrained sequence. -/
def apply_contact_constraints (st : Option K) (kps : Seq3 K)
    (flags : Option (List (Bool × Bool))) :
    Option (Option K × Seq3 K) :=
  let st2 := resolveGround st kps
  let nj := numJoints kps
  match flags with
  | none => some (st2, kps)
  | some fl =>
    match kps.enum.mapM (fun p => constrainFrameOpt st2 nj (fl.get? p.1) p.2) with
    | none => none
    | some out => some (st2, out)

/-! ## EnvironmentalRobustnessService (environmental_robustness.py 338-408)

`calibrate_from_anthropometry` and `process_keypoints` take Euclidean
norms as values (not merely in comparisons), so they are embedded at
K = Real with `Real.sqrt`. -/

/-- Python `calibrate_from_anthropometry(keypoints_3d, person_height_mm)`:
head-to-ankle pixel distance (nose, joint 0, to right ankle, joint 16)
averaged over frames; assumed metric head-to-ankle length 1500 mm, or
`0.85 * person_height_mm` when a (truthy, i.e. nonzero) height is given.
Returns the new `scale_factor`; if the joint check `shape[1] >
max(head_idx, ankle_idx)` fails the method leaves `scale_factor` as it
was (`none` here - callers pass an uncalibrated state).  An
all-coincident head/ankle sequence gives a float infinity in Python;
infinities are outside this model and outside every claim below. -/
noncomputable def calibrate_from_anthropometry (kps : Seq3 ℝ)
    (person_height_mm : Option ℝ) : Option ℝ :=
  if 16 < numJoints kps then
    let head_pos := column 0 kps
    let ankle_pos := column 16 kps
    let dists := (head_pos.zip ankle_pos).map
      (fun pq => Real.sqrt (dist3Sq pq.1 pq.2))
    let height_pixels := dists.sum / dists.length
    let estimated_height_pixels : ℝ :=
      match person_height_mm with
      | some h => if h ≠ 0 then h * (85 / 100) else 1500
      | none => 1500
    some (estimated_height_pixels / height_pixels)
  else none

/-- Result dictionary of `process_keypoints`. -/
structure ProcessResult where
  keypoints_3d_mm : Seq3 ℝ
  scale_factor : Option ℝ
  contact_flags : List (Bool × Bool)
  ground_plane_z : Option ℝ

/-- Steps 2 and 3 of `process_keypoints` on the metric keypoints: slice
out (x, y), Kalman-denoise it, write the filtered slice back over a copy
of the metric keypoints, detect foot contact and apply the contact
constraints on fresh foot-contact state. -/
noncomputable def processSteps23 (scale : Option ℝ) (kpsMm : Seq3 ℝ)
    (conf : Option (List (List ℝ))) : Option ProcessResult :=
  let kps2 := kpsMm.map (fun fr => fr.map (fun p => (p.1, p.2.1)))
  match denoise_sequence2 17 kps2 conf with
  | none => none
  | some den2 =>
    let denoised : Seq3 ℝ :=
      List.zipWith
        (fun fr3 fr2 =>
          List.zipWith (fun p q => (q.1, q.2, p.2.2)) fr3 fr2)
        kpsMm den2
    match detect_contact none denoised 50 with
    | none => none
    | some (ground, flags) =>
      match apply_contact_constraints ground denoised (some flags) with
      | none => none
      | some (ground2, constrained) =>
        some { keypoints_3d_mm := constrained
               scale_factor := scale
               contact_flags := flags
               ground_plane_z := ground2 }

/-- Python `EnvironmentalRobustnessService.process_keypoints` with
`reference_frame=None` (the cv2 reference-object branch consumes a video
frame, which the spec scopes out of this core): if the calibrator state
holds no scale factor yet, fall back to anthropometric calibration; if
the resulting factor is truthy (non-None and nonzero) convert the
keypoints to mm; then run steps 2 and 3 above.  Every Python exception
along the way is `none`. -/
noncomputable def process_keypoints (kps : Seq3 ℝ)
    (conf : Option (List (List ℝ))) (calibSt : ScaleCalibratorState ℝ) :
    Option ProcessResult :=
  let scale : Option ℝ :=
    match calibSt.scale_factor with
    | some s => some s
    | none => calibrate_from_anthropometry kps none
  let kpsMm : Seq3 ℝ :=
    match scale with
    | some s =>
      if s ≠ 0 then
        kps.map (fun fr => fr.map (fun p => (p.1 * s, p.2.1 * s, p.2.2 * s)))
      else kps
    | none => kps
  processSteps23 scale kpsMm conf

/-! ## scipy.signal.find_peaks (used by the metrics calculator)

`find_peaks(x, distance=d)` is a library routine, embedded from its
documented and sourced behaviour: strict local maxima with plateau
midpoints (`_local_maxima_1d`), then suppression of smaller peaks
closer than `d` samples to a kept larger one, processed in descending
height order (`_select_by_peak_distance`).  Loops advance their index
every iteration, so a fuel of the array size bounds them; the fuel is
never exhausted on the lengths involved.  numpy's argsort tie order
among equal heights is implementation defined; the embedding uses the
stable order (no claim below depends on ties). -/

/-- Scan of the inner plateau loop: first index `k >= j` with
`k >= size - 1` or `x[k] != v`. -/
def plateauEnd (x : Array K) (v : K) : ℕ → ℕ → ℕ
  | j, 0 => j
  | j, fuel + 1 =>
    if j < x.size - 1 ∧ x.getD j 0 = v then plateauEnd x v (j + 1) fuel
    else j

/-- The scan of `_local_maxima_1d`, from index i (fuel bounds the
remaining iterations; every step advances i by at least one). -/
def lmAux (x : Array K) : ℕ → ℕ → List ℕ
  | _, 0 => []
  | i, fuel + 1 =>
    if i < x.size - 1 then
      if x.getD (i - 1) 0 < x.getD i 0 then
        let k := plateauEnd x (x.getD i 0) (i + 1) x.size
        if x.getD k 0 < x.getD i 0 then
          (i + (k - 1)) / 2 :: lmAux x (k + 1) fuel
        else lmAux x (i + 1) fuel
      else lmAux x (i + 1) fuel
    else []

/-- Python `_local_maxima_1d(x)`: midpoints of strict local maxima. -/
def localMaxima1d (x : Array K) : List ℕ :=
  lmAux x 1 x.size

/-- Stable insert for an ascending argsort. -/
def insertIdx (p : ℕ × K) : List (ℕ × K) → List (ℕ × K)
  | [] => [p]
  | q :: qs => if p.2 ≤ q.2 then p :: q :: qs else q :: insertIdx p qs

/-- Stable ascending argsort of a value list. -/
def argsortAsc (h : List K) : List ℕ :=
  (h.enum.foldr insertIdx []).map (fun p => p.1)

/-- Inner loop of `_select_by_peak_distance` going left from j:
clear neighbours k = j-1, j-2, ... while `peaks[j] - peaks[k] < dist`. -/
def clearLeft (peaks : Array ℕ) (dist j : ℕ) : ℕ → Array Bool → Array Bool
  | 0, keep => keep
  | c + 1, keep =>
    if peaks.getD j 0 - peaks.getD c 0 < dist then
      clearLeft peaks dist j c (keep.setD c false)
    else keep

/-- Inner loop going right from j: clear k = j+1, j+2, ... while
`k < size` and `peaks[k] - peaks[j] < dist`. -/
def clearRight (peaks : Array ℕ) (dist j : ℕ) : ℕ → ℕ → Array Bool → Array Bool
  | _, 0, keep => keep
  | k, fuel + 1, keep =>
    if k < peaks.size then
      if peaks.getD k 0 - peaks.getD j 0 < dist then
        clearRight peaks dist j (k + 1) fuel (keep.setD k false)
      else keep
    else keep

/-- Outer loop of `_select_by_peak_distance` over the peaks in the given
(priority) order, skipping peaks already cleared. -/
def selectLoop (peaks : Array ℕ) (dist : ℕ) : List ℕ → Array Bool → Array Bool
  | [], keep => keep
  | j :: rest, keep =>
    if keep.getD j false then
      let keep1 := clearLeft peaks dist j j keep
      let keep2 := clearRight peaks dist j (j + 1) peaks.size keep1
      selectLoop peaks dist rest keep2
    else selectLoop peaks dist rest keep

/-- Python `_select_by_peak_distance(peaks, priority, distance)`: which peaks
survive, processing in descending priority order. -/
def select_by_peak_distance (peaks : List ℕ) (priority : List K)
    (dist : ℕ) : List Bool :=
  let order := (argsortAsc priority).reverse
  (selectLoop peaks.toArray dist order (Array.mkArray peaks.length true)).toList

/-- Python `scipy.signal.find_peaks(x, distance=dist)[0]`.  scipy validates
`distance >= 1` (raising otherwise); callers below check that. -/
def find_peaks (x : List K) (dist : ℕ) : List ℕ :=
  let peaks := localMaxima1d x.toArray
  let keep := select_by_peak_distance peaks (peaks.map (fun i => x.getD i 0)) dist
  ((peaks.zip keep).filter (fun pk => pk.2)).map (fun pk => pk.1)

/-! ## GaitMetricsCalculator (metrics_calculator.py)

The calculator is constructed with a capture rate `fps` (default 30);
`dt = 1 / fps`.  The COCO joint indices used: left_hip 11, right_hip 12,
left_ankle 15, right_ankle 16.  These functions are embedded for data
carrying the 17-point layout of the data model (smaller joint counts
raise IndexError in Python and are outside every use below). -/

/-- Python `int(v)` for the nonnegative values Python computes here. -/
def pyInt [FloorRing K] (v : K) : ℕ :=
  (Int.floor v).toNat

/-- Python `np.diff` of a 1-D signal. -/
def npDiff1 (l : List K) : List K :=
  (consecPairs l).map (fun pq => pq.2 - pq.1)

/-- The four event index lists of `_detect_gait_events`. -/
structure GaitEvents where
  left_heel_strike : List ℕ
  right_heel_strike : List ℕ
  left_toe_off : List ℕ
  right_toe_off : List ℕ

/-- Python `_detect_gait_events(keypoints_3d)`: heel strikes are peaks of the
negated ankle z signal with minimum spacing `int(fps * 0.5)`, toe offs
are peaks of the frame-to-frame ankle z velocity with minimum spacing
`int(fps * 0.3)`.  scipy rejects a distance below 1 (ValueError),
hence the guard. -/
def detect_gait_events [FloorRing K] (fps : K) (kps : Seq3 K) :
    Option (GaitEvents) :=
  let left_ankle_z := columnZ 15 kps
  let right_ankle_z := columnZ 16 kps
  let dHS := pyInt (fps * (1 / 2))
  let dTO := pyInt (fps * (3 / 10))
  if 1 ≤ dHS ∧ 1 ≤ dTO then
    some
      { left_heel_strike := find_peaks (left_ankle_z.map (fun z => -z)) dHS
        right_heel_strike := find_peaks (right_ankle_z.map (fun z => -z)) dHS
        left_toe_off := find_peaks (npDiff1 left_ankle_z) dTO
        right_toe_off := find_peaks (npDiff1 right_ankle_z) dTO }
  else none

/-- Python `hip_center = (left_hip + right_hip) / 2`. -/
def hip_center (kps : Seq3 K) : List (Vec3 K) :=
  List.zipWith
    (fun l r => ((l.1 + r.1) / 2, (l.2.1 + r.2.1) / 2, (l.2.2 + r.2.2) / 2))
    (column 11 kps) (column 12 kps)

/-- Python `_calculate_gait_speed`: absolute forward (x) displacement of the
hip center between the last and first frame over the elapsed time;
0 when the elapsed time is not positive.  Indexing `hip_center[-1]` of
an empty sequence is the IndexError `none`. -/
def calculate_gait_speed (fps : K) (kps : Seq3 K) : Option K :=
  let hc := hip_center kps
  match hc.head?, hc.getLast? with
  | some h0, some hl =>
    let forward_displacement := hl.1 - h0.1
    let total_time := ((kps.length - 1 : ℕ) : K) * (1 / fps)
    if 0 < total_time then some (|forward_displacement| / total_time)
    else some 0
  | _, _ => none

/-- Python `_calculate_stride_length`: 0 with fewer than two left heel strikes,
else the mean planar (x, y) distance of the hip center between
consecutive left heel strikes.  Peak indices always lie inside the
sequence, so the default of `getD` is never consulted. -/
noncomputable def calculate_stride_length (kps : Seq3 ℝ) (ev : GaitEvents) : ℝ :=
  if ev.left_heel_strike.length < 2 then 0
  else
    let hc := hip_center kps
    let stride_lengths := (consecPairs ev.left_heel_strike).map (fun ij =>
      let pos1 := hc.getD ij.1 (0, 0, 0)
      let pos2 := hc.getD ij.2 (0, 0, 0)
      Real.sqrt ((pos2.1 - pos1.1) ^ 2 + (pos2.2.1 - pos1.2.1) ^ 2))
    if stride_lengths.isEmpty then 0
    else stride_lengths.sum / stride_lengths.length

/-- Python `_calculate_cadence`: (left + right strike count) / elapsed time,
in steps per minute; 0 when the elapsed time is not positive. -/
def calculate_cadence (fps : K) (ev : GaitEvents) (num_frames : ℕ) : K :=
  let total_steps := ev.left_heel_strike.length + ev.right_heel_strike.length
  let total_time := (num_frames : K) * (1 / fps)
  if 0 < total_time then ((total_steps : K) / total_time) * 60 else 0

/-- Python `np.min` of a 1-D array; empty input raises (none). -/
def npMin (l : List K) : Option K :=
  match l with
  | [] => none
  | x :: xs => some (xs.foldl min x)

/-- Python `_calculate_toe_clearance`: ground = min over both ankles of the
minimum z; per-foot clearance = min of (ankle z - ground); result = min
of the two clearances (the ankle is used as the toe proxy). -/
def calculate_toe_clearance (kps : Seq3 K) : Option K :=
  let left_ankle_z := columnZ 15 kps
  let right_ankle_z := columnZ 16 kps
  match npMin left_ankle_z, npMin right_ankle_z with
  | some lmin, some rmin =>
    let ground_z := min lmin rmin
    match npMin (left_ankle_z.map (fun z => z - ground_z)),
          npMin (right_ankle_z.map (fun z => z - ground_z)) with
    | some lc, some rc => some (min lc rc)
    | _, _ => none
  | _, _ => none

/-! ## QualityGateService (quality_gate.py) and config.py

`settings.MIN_FRAME_COUNT = 30`.  The five checks produce
PASS/WARNING/FAIL with a message; claims C3 and C7 concern the
frame-count check and the aggregation/gate logic, which are embedded
here; the aggregation is a function of the five check results exactly
as `_determine_overall_quality` receives them. -/

/-- Quality assessment levels. -/
inductive QualityLevel
  | pass
  | warning
  | fail
deriving DecidableEq, Repr

/-- One check result: status plus human-readable message (the numeric
witness value is not consulted by the aggregation). -/
structure CheckResult where
  status : QualityLevel
  message : String

/-- Python `Settings.MIN_FRAME_COUNT` (config.py line 41). -/
def MIN_FRAME_COUNT : ℕ := 30

/-- Python `_check_frame_count(num_frames)` with the service's
`min_frame_count`: FAIL below the minimum, WARNING below twice the
minimum, PASS otherwise. -/
def check_frame_count (min_frame_count num_frames : ℕ) : CheckResult :=
  if num_frames < min_frame_count then
    { status := .fail
      message := "Insufficient frames: " ++ toString num_frames ++ " < " ++
        toString min_frame_count }
  else if num_frames < min_frame_count * 2 then
    { status := .warning, message := "Low frame count: " ++ toString num_frames }
  else
    { status := .pass, message := "Sufficient frames: " ++ toString num_frames }

/-- The check dictionary built by `assess_quality` (its five keys in
insertion order). -/
structure Checks where
  frame_count : CheckResult
  joint_confidence : CheckResult
  missing_joints : CheckResult
  anatomical_constraints : CheckResult
  temporal_consistency : CheckResult

/-- Python `checks.items()` in insertion order. -/
def Checks.toPairs (c : Checks) : List (String × CheckResult) :=
  [("frame_count", c.frame_count),
   ("joint_confidence", c.joint_confidence),
   ("missing_joints", c.missing_joints),
   ("anatomical_constraints", c.anatomical_constraints),
   ("temporal_consistency", c.temporal_consistency)]

/-- Python `_determine_overall_quality`: FAIL if any check fails, else WARNING
if any check warns, else PASS. -/
def determine_overall_quality (c : Checks) : QualityLevel :=
  if c.toPairs.any (fun kv => decide (kv.2.status = .fail)) then .fail
  else if c.toPairs.any (fun kv => decide (kv.2.status = .warning)) then .warning
  else .pass

/-- The part of the `assess_quality` result dictionary the callers
consume: overall verdict, the per-check details, `can_proceed`
(overall verdict is not FAIL), and the warning check names. -/
structure Assessment where
  overall_quality : QualityLevel
  details : Checks
  can_proceed : Bool
  warnings : List String

/-- Python `assess_quality`, as a function of the five computed check results
(both call sites run the same checks on the same input). -/
def assessFromChecks (c : Checks) : Assessment :=
  let oq := determine_overall_quality c
  { overall_quality := oq
    details := c
    can_proceed := decide (oq ≠ .fail)
    warnings := ((c.toPairs.filter
      (fun kv => decide (kv.2.status = .warning))).map (fun kv => kv.1)) }

/-- Python `gate_analysis`: run `assess_quality` and, when it says not to
proceed, return False together with the "; "-joined `k: message` lines
of the FAILing checks; otherwise (True, None). -/
def gateFromChecks (c : Checks) : Bool × Option String :=
  let assessment := assessFromChecks c
  if assessment.can_proceed then (true, none)
  else
    (false, some (String.intercalate "; "
      ((assessment.details.toPairs.filter
        (fun kv => decide (kv.2.status = .fail))).map
        (fun kv => kv.1 ++ ": " ++ kv.2.message))))

/-! ## Theorems -/

/-- C9: after a successful calibration from a reference with positive
pixel length and positive mm length, `pixel_to_mm (mm_to_pixel x) = x`
exactly, over exact rational arithmetic. -/
theorem C9_scale_roundtrip (st : ScaleCalibratorState ℚ) (px mm x : ℚ)
    (hpx : 0 < px) (hmm : 0 < mm) :
    pixel_to_mm (calibrate_from_reference st px mm)
      (mm_to_pixel (calibrate_from_reference st px mm) x) = x := by
  have hs : mm / px ≠ 0 := div_ne_zero (ne_of_gt hmm) (ne_of_gt hpx)
  simp only [pixel_to_mm, mm_to_pixel, calibrate_from_reference]
  exact div_mul_cancel₀ x hs

/-- Witness for C9 at the concrete calibration 100 px = 210 mm and the
distance 7. -/
theorem C9_scale_roundtrip_witness :
    (0 : ℚ) < 100 ∧ (0 : ℚ) < 210 ∧
    pixel_to_mm (calibrate_from_reference (scaleCalibratorInit (K := ℚ)) 100 210)
      (mm_to_pixel (calibrate_from_reference (scaleCalibratorInit (K := ℚ)) 100 210) 7) = 7 :=
  ⟨by decide, by decide,
   C9_scale_roundtrip (scaleCalibratorInit (K := ℚ)) 100 210 7 (by decide) (by decide)⟩

/-- C3 counterexample: with the configured minimum of 30, a sequence of
exactly 60 frames gets PASS from the frame-count check, not the WARNING
the claim states (the WARNING branch requires `num_frames < 60`). -/
theorem C3_sixty_frames_not_warning :
    (check_frame_count MIN_FRAME_COUNT 60).status ≠ QualityLevel.warning ∧
    (check_frame_count MIN_FRAME_COUNT 60).status = QualityLevel.pass := by
  constructor <;> decide

/-- C3 (amended): the frame-count check returns FAIL for every count
strictly below 30 (in particular 29), WARNING for counts from 30 to 59,
and PASS for every count of 60 or more (in particular 61+). -/
theorem C3_frame_count_boundaries (n : ℕ) :
    (n < 30 → (check_frame_count MIN_FRAME_COUNT n).status = QualityLevel.fail) ∧
    (30 ≤ n → n < 60 →
      (check_frame_count MIN_FRAME_COUNT n).status = QualityLevel.warning) ∧
    (60 ≤ n → (check_frame_count MIN_FRAME_COUNT n).status = QualityLevel.pass) := by
  refine ⟨fun h => ?_, fun h1 h2 => ?_, fun h => ?_⟩
  · simp only [check_frame_count, MIN_FRAME_COUNT]
    rw [if_pos h]
  · simp only [check_frame_count, MIN_FRAME_COUNT]
    rw [if_neg (by omega), if_pos (by omega)]
  · simp only [check_frame_count, MIN_FRAME_COUNT]
    rw [if_neg (by omega), if_neg (by omega)]

/-- Witness for C3 at the boundary counts 29 (FAIL), 45 (WARNING) and
61 (PASS). -/
theorem C3_frame_count_boundaries_witness :
    (check_frame_count MIN_FRAME_COUNT 29).status = QualityLevel.fail ∧
    (check_frame_count MIN_FRAME_COUNT 45).status = QualityLevel.warning ∧
    (check_frame_count MIN_FRAME_COUNT 61).status = QualityLevel.pass :=
  ⟨(C3_frame_count_boundaries 29).1 (by decide),
   (C3_frame_count_boundaries 45).2.1 (by decide) (by decide),
   (C3_frame_count_boundaries 61).2.2 (by decide)⟩

/-- The boolean any-test over the check set detects a status. -/
theorem checksAnyTrue (c : Checks) (s : QualityLevel) :
    (c.toPairs.any (fun kv => decide (kv.2.status = s)) = true) ↔
      ∃ kv ∈ c.toPairs, kv.2.status = s := by
  simp [List.any_eq_true]

/-- The boolean any-test over the check set fails exactly when no check
has the status. -/
theorem checksAnyFalse (c : Checks) (s : QualityLevel) :
    (c.toPairs.any (fun kv => decide (kv.2.status = s)) = false) ↔
      ∀ kv ∈ c.toPairs, kv.2.status ≠ s := by
  constructor
  · intro h kv hm hs
    have ht := (checksAnyTrue c s).2 ⟨kv, hm, hs⟩
    rw [h] at ht
    exact Bool.false_ne_true ht
  · intro h
    rcases hh : c.toPairs.any (fun kv => decide (kv.2.status = s)) with _ | _
    · rfl
    · obtain ⟨kv, hm, hs⟩ := (checksAnyTrue c s).1 hh
      exact absurd hs (h kv hm)

/-- Case analysis of `_determine_overall_quality` at the level of its
two boolean tests. -/
theorem dqCases (c : Checks) :
    (determine_overall_quality c = QualityLevel.fail ↔
      c.toPairs.any (fun kv => decide (kv.2.status = QualityLevel.fail)) = true) ∧
    (determine_overall_quality c = QualityLevel.warning ↔
      (c.toPairs.any (fun kv => decide (kv.2.status = QualityLevel.fail)) = false ∧
       c.toPairs.any (fun kv => decide (kv.2.status = QualityLevel.warning)) = true)) ∧
    (determine_overall_quality c = QualityLevel.pass ↔
      (c.toPairs.any (fun kv => decide (kv.2.status = QualityLevel.fail)) = false ∧
       c.toPairs.any (fun kv => decide (kv.2.status = QualityLevel.warning)) = false)) := by
  unfold determine_overall_quality
  rcases h1 : c.toPairs.any (fun kv => decide (kv.2.status = QualityLevel.fail)) with _ | _ <;>
    rcases h2 : c.toPairs.any (fun kv => decide (kv.2.status = QualityLevel.warning)) with _ | _ <;>
      simp [h1, h2]

/-- The gate's proceed boolean is the assessment's `can_proceed`. -/
theorem gateFstEqCanProceed (c : Checks) :
    (gateFromChecks c).1 = (assessFromChecks c).can_proceed := by
  rcases hc : (assessFromChecks c).can_proceed with _ | _ <;>
    simp [gateFromChecks, hc]

/-- C7: for every set of five check results, the overall quality is FAIL
iff some check fails, WARNING iff none fails and some warns, PASS iff
none fails or warns; `can_proceed` holds exactly when the overall
quality is not FAIL; and `gate_analysis` (which runs `assess_quality`
on the same checks) refuses to proceed exactly when the assessment is
overall FAIL, returning the "; "-joined `name: message` lines of the
failing checks. -/
theorem C7_quality_aggregation (c : Checks) :
    (determine_overall_quality c = QualityLevel.fail ↔
      ∃ kv ∈ c.toPairs, kv.2.status = QualityLevel.fail) ∧
    (determine_overall_quality c = QualityLevel.warning ↔
      ((∀ kv ∈ c.toPairs, kv.2.status ≠ QualityLevel.fail) ∧
        ∃ kv ∈ c.toPairs, kv.2.status = QualityLevel.warning)) ∧
    (determine_overall_quality c = QualityLevel.pass ↔
      ∀ kv ∈ c.toPairs, kv.2.status ≠ QualityLevel.fail ∧
        kv.2.status ≠ QualityLevel.warning) ∧
    ((assessFromChecks c).can_proceed = true ↔
      (assessFromChecks c).overall_quality ≠ QualityLevel.fail) ∧
    ((gateFromChecks c).1 = false ↔
      (assessFromChecks c).overall_quality = QualityLevel.fail) ∧
    ((gateFromChecks c).1 = false →
      (gateFromChecks c).2 = some (String.intercalate "; "
        ((c.toPairs.filter
          (fun kv => decide (kv.2.status = QualityLevel.fail))).map
          (fun kv => kv.1 ++ ": " ++ kv.2.message)))) := by
  obtain ⟨hf, hw, hp⟩ := dqCases c
  refine ⟨?_, ?_, ?_, ?_, ?_, ?_⟩
  · exact hf.trans (checksAnyTrue c _)
  · exact hw.trans (and_congr (checksAnyFalse c _) (checksAnyTrue c _))
  · refine hp.trans ((and_congr (checksAnyFalse c _) (checksAnyFalse c _)).trans ?_)
    constructor
    · rintro ⟨ha, hb⟩ kv hm
      exact ⟨ha kv hm, hb kv hm⟩
    · intro h
      exact ⟨fun kv hm => (h kv hm).1, fun kv hm => (h kv hm).2⟩
  · show decide (determine_overall_quality c ≠ QualityLevel.fail) = true ↔
        determine_overall_quality c ≠ QualityLevel.fail
    exact decide_eq_true_iff
  · rw [gateFstEqCanProceed]
    show decide (determine_overall_quality c ≠ QualityLevel.fail) = false ↔
        determine_overall_quality c = QualityLevel.fail
    rw [decide_eq_false_iff_not, not_not]
  · intro hgate
    rw [gateFstEqCanProceed] at hgate
    simp [gateFromChecks, hgate]
    rfl

/-- Folding min over a constant-shifted list shifts the fold. -/
theorem foldlMin_map_sub (g : K) : ∀ (xs : List K) (a : K),
    (xs.map (fun z => z - g)).foldl min (a - g) = xs.foldl min a - g := by
  intro xs
  induction xs with
  | nil => intro a; rfl
  | cons y ys ih =>
    intro a
    simp only [List.map_cons, List.foldl_cons]
    rw [min_sub_sub_right, ih]

/-- Shifting every element by a constant shifts the array minimum. -/
theorem npMin_map_sub (g : K) (l : List K) :
    npMin (l.map (fun z => z - g)) = (npMin l).map (fun m => m - g) := by
  cases l with
  | nil => rfl
  | cons x xs =>
    simp only [npMin, List.map_cons]
    rw [foldlMin_map_sub]
    rfl

/-- A column of a rectangular nonempty sequence is nonempty. -/
theorem columnZ_ne_nil (kps : Seq3 K) (j t : ℕ) (hr : Rect kps t)
    (hne : kps ≠ []) (hj : j < t) : columnZ j kps ≠ [] := by
  cases kps with
  | nil => exact absurd rfl hne
  | cons fr rest =>
    have hlen : fr.length = t := hr fr (List.mem_cons_self fr rest)
    cases hg : fr.get? j with
    | none =>
      rw [List.get?_eq_none] at hg
      omega
    | some p =>
      simp only [columnZ, column, List.filterMap_cons, hg]
      exact fun h => List.noConfusion h

/-- C4: for every 17-joint keypoint sequence with at least one frame
(all coordinates of the model field K are finite, matching the claim's
finiteness hypothesis), `_calculate_toe_clearance` returns exactly 0:
its ground reference is the minimum of the two per-foot minimum ankle z
values, so the smaller per-foot clearance is always zero. -/
theorem C4_toe_clearance_zero (kps : Seq3 K) (hr : Rect kps 17)
    (hne : kps ≠ []) : calculate_toe_clearance kps = some 0 := by
  have hl := columnZ_ne_nil kps 15 17 hr hne (by omega)
  have hrr := columnZ_ne_nil kps 16 17 hr hne (by omega)
  obtain ⟨x, xs, hx⟩ : ∃ x xs, columnZ 15 kps = x :: xs := by
    cases h : columnZ 15 kps with
    | nil => exact absurd h hl
    | cons x xs => exact ⟨x, xs, rfl⟩
  obtain ⟨y, ys, hy⟩ : ∃ y ys, columnZ 16 kps = y :: ys := by
    cases h : columnZ 16 kps with
    | nil => exact absurd h hrr
    | cons y ys => exact ⟨y, ys, rfl⟩
  have hminl : npMin (columnZ 15 kps) = some (xs.foldl min x) := by
    rw [hx]; rfl
  have hminr : npMin (columnZ 16 kps) = some (ys.foldl min y) := by
    rw [hy]; rfl
  have hmapl : npMin ((columnZ 15 kps).map
      (fun z => z - min (xs.foldl min x) (ys.foldl min y))) =
      some (xs.foldl min x - min (xs.foldl min x) (ys.foldl min y)) := by
    rw [npMin_map_sub, hminl]
    rfl
  have hmapr : npMin ((columnZ 16 kps).map
      (fun z => z - min (xs.foldl min x) (ys.foldl min y))) =
      some (ys.foldl min y - min (xs.foldl min x) (ys.foldl min y)) := by
    rw [npMin_map_sub, hminr]
    rfl
  simp only [calculate_toe_clearance]
  rw [hminl, hminr]
  simp only []
  rw [hmapl, hmapr]
  simp only [min_sub_sub_right, sub_self]

/-- Witness for C4: a concrete single-frame 17-joint sequence. -/
theorem C4_toe_clearance_zero_witness :
    calculate_toe_clearance
      ((List.range 1).map (fun _ =>
        (List.range 17).map (fun j => ((j : ℚ), 0, (j : ℚ) + 1)))) = some 0 :=
  C4_toe_clearance_zero _ (by decide) (by decide)

/-! ### Shape lemmas for the denoiser and the contact detector -/

/-- A column of a rectangular sequence has one entry per frame. -/
theorem column_length (kps : Seq3 K) (j t : ℕ) (hr : Rect kps t)
    (hj : j < t) : (column j kps).length = kps.length := by
  induction kps with
  | nil => rfl
  | cons fr rest ih =>
    have hlen : fr.length = t := hr fr (List.mem_cons_self fr rest)
    cases hg : fr.get? j with
    | none =>
      rw [List.get?_eq_none] at hg
      omega
    | some p =>
      simp only [column, List.filterMap_cons, hg, List.length_cons]
      have := ih (fun fr2 h2 => hr fr2 (List.mem_cons_of_mem fr h2))
      simp only [column] at this
      rw [this]

/-- Python `np.diff` has one entry fewer than its input. -/
theorem consecPairs_length {α : Type} (l : List α) :
    (consecPairs l).length = l.length - 1 := by
  simp only [consecPairs, List.length_zip, List.length_tail]
  omega

/-- Success and shape of the joint loop (dims = 2 branch): with enough
filters and covering confidence the loop succeeds, emitting one output
per joint and returning as many filters as it received. -/
theorem denoiseFrameAux2_spec (conf : Option (List (List K))) (f : ℕ) :
    ∀ (fr : List (K × K)) (j : ℕ) (kfs : List (KFState K)),
    fr.length ≤ kfs.length →
    (∀ i, i < fr.length → (confLookup conf f (j + i)).isSome) →
    ∃ out kfs2, denoiseFrameAux2 conf f j fr kfs = some (out, kfs2) ∧
      out.length = fr.length ∧ kfs2.length = kfs.length := by
  intro fr
  induction fr with
  | nil =>
    intro j kfs _ _
    exact ⟨[], kfs, rfl, rfl, rfl⟩
  | cons z zs ih =>
    intro j kfs hlen hcov
    cases kfs with
    | nil => simp at hlen
    | cons kf kfs =>
      obtain ⟨c, hc⟩ : ∃ c, confLookup conf f j = some c := by
        have h0 := hcov 0 (by simp)
        rcases hcc : confLookup conf f j with _ | c
        · rw [Nat.add_zero] at h0
          rw [hcc] at h0
          simp at h0
        · exact ⟨c, rfl⟩
      have hcov2 : ∀ i, i < zs.length → (confLookup conf f (j + 1 + i)).isSome := by
        intro i hi
        have := hcov (i + 1) (by simpa using Nat.succ_lt_succ hi)
        rwa [show j + (i + 1) = j + 1 + i by omega] at this
      obtain ⟨out, kfs2, heq, h1, h2⟩ :=
        ih (j + 1) kfs (by simpa using Nat.le_of_succ_le_succ hlen) hcov2
      refine ⟨(kfStep c (z.1, z.2) kf).1 :: out, (kfStep c (z.1, z.2) kf).2 :: kfs2, ?_, ?_, ?_⟩
      · simp only [denoiseFrameAux2, hc, heq]
      · simp [h1]
      · simp [h2]

/-- Success, shape and z-passthrough of the joint loop (dims = 3
branch). -/
theorem denoiseFrameAux3_spec (conf : Option (List (List K))) (f : ℕ) :
    ∀ (fr : Frame K) (j : ℕ) (kfs : List (KFState K)),
    fr.length ≤ kfs.length →
    (∀ i, i < fr.length → (confLookup conf f (j + i)).isSome) →
    ∃ out kfs2, denoiseFrameAux3 conf f j fr kfs = some (out, kfs2) ∧
      out.length = fr.length ∧ kfs2.length = kfs.length ∧
      ∀ i, (out.get? i).map (fun p => p.2.2) =
        (fr.get? i).map (fun p => p.2.2) := by
  intro fr
  induction fr with
  | nil =>
    intro j kfs _ _
    exact ⟨[], kfs, rfl, rfl, rfl, fun i => rfl⟩
  | cons p ps ih =>
    intro j kfs hlen hcov
    cases kfs with
    | nil => simp at hlen
    | cons kf kfs =>
      obtain ⟨c, hc⟩ : ∃ c, confLookup conf f j = some c := by
        have h0 := hcov 0 (by simp)
        rcases hcc : confLookup conf f j with _ | c
        · rw [Nat.add_zero] at h0
          rw [hcc] at h0
          simp at h0
        · exact ⟨c, rfl⟩
      have hcov2 : ∀ i, i < ps.length → (confLookup conf f (j + 1 + i)).isSome := by
        intro i hi
        have := hcov (i + 1) (by simpa using Nat.succ_lt_succ hi)
        rwa [show j + (i + 1) = j + 1 + i by omega] at this
      obtain ⟨out, kfs2, heq, h1, h2, hz⟩ :=
        ih (j + 1) kfs (by simpa using Nat.le_of_succ_le_succ hlen) hcov2
      refine ⟨((kfStep c (p.1, p.2.1) kf).1.1, (kfStep c (p.1, p.2.1) kf).1.2, p.2.2) :: out,
        (kfStep c (p.1, p.2.1) kf).2 :: kfs2, ?_, ?_, ?_, ?_⟩
      · simp only [denoiseFrameAux3, hc, heq]
      · simp [h1]
      · simp [h2]
      · intro i
        cases i with
        | zero => rfl
        | succ i => exact hz i

/-- Success and shape of the frame loop (dims = 2). -/
theorem denoiseSeqAux2_spec (conf : Option (List (List K))) :
    ∀ (frs : List (List (K × K))) (f : ℕ) (kfs : List (KFState K)),
    (∀ fr ∈ frs, fr.length ≤ kfs.length) →
    (∀ a fr, frs.get? a = some fr →
      ∀ i, i < fr.length → (confLookup conf (f + a) i).isSome) →
    ∃ outs, denoiseSeqAux2 conf f frs kfs = some outs ∧
      outs.length = frs.length ∧
      ∀ a, (outs.get? a).map List.length = (frs.get? a).map List.length := by
  intro frs
  induction frs with
  | nil =>
    intro f kfs _ _
    exact ⟨[], rfl, rfl, fun a => rfl⟩
  | cons fr frs ih =>
    intro f kfs hlen hcov
    obtain ⟨out1, kfs2, heq1, hl1, hk1⟩ :=
      denoiseFrameAux2_spec conf f fr 0 kfs
        (hlen fr (List.mem_cons_self fr frs))
        (fun i hi => by simpa using hcov 0 fr rfl i hi)
    obtain ⟨outs, heq2, hl2, hget⟩ :=
      ih (f + 1) kfs2
        (fun fr2 h2 => hk1 ▸ hlen fr2 (List.mem_cons_of_mem fr h2))
        (fun a fr2 h2 i hi => by
          have := hcov (a + 1) fr2 (by simpa using h2) i hi
          rwa [show f + (a + 1) = f + 1 + a by omega] at this)
    refine ⟨out1 :: outs, ?_, by simp [hl2], ?_⟩
    · simp only [denoiseSeqAux2, heq1, heq2]
    · intro a
      cases a with
      | zero => simp [hl1]
      | succ a => exact hget a

/-- Success, shape and z-passthrough of the frame loop (dims = 3). -/
theorem denoiseSeqAux3_spec (conf : Option (List (List K))) :
    ∀ (frs : Seq3 K) (f : ℕ) (kfs : List (KFState K)),
    (∀ fr ∈ frs, fr.length ≤ kfs.length) →
    (∀ a fr, frs.get? a = some fr →
      ∀ i, i < fr.length → (confLookup conf (f + a) i).isSome) →
    ∃ outs, denoiseSeqAux3 conf f frs kfs = some outs ∧
      outs.length = frs.length ∧
      (∀ a, (outs.get? a).map List.length = (frs.get? a).map List.length) ∧
      ∀ a i, ((outs.get? a).bind (fun ofr => ofr.get? i)).map (fun p => p.2.2) =
        ((frs.get? a).bind (fun ifr => ifr.get? i)).map (fun p => p.2.2) := by
  intro frs
  induction frs with
  | nil =>
    intro f kfs _ _
    exact ⟨[], rfl, rfl, fun a => rfl, fun a i => rfl⟩
  | cons fr frs ih =>
    intro f kfs hlen hcov
    obtain ⟨out1, kfs2, heq1, hl1, hk1, hz1⟩ :=
      denoiseFrameAux3_spec conf f fr 0 kfs
        (hlen fr (List.mem_cons_self fr frs))
        (fun i hi => by simpa using hcov 0 fr rfl i hi)
    obtain ⟨outs, heq2, hl2, hget, hz2⟩ :=
      ih (f + 1) kfs2
        (fun fr2 h2 => hk1 ▸ hlen fr2 (List.mem_cons_of_mem fr h2))
        (fun a fr2 h2 i hi => by
          have := hcov (a + 1) fr2 (by simpa using h2) i hi
          rwa [show f + (a + 1) = f + 1 + a by omega] at this)
    refine ⟨out1 :: outs, ?_, by simp [hl2], ?_, ?_⟩
    · simp only [denoiseSeqAux3, heq1, heq2]
    · intro a
      cases a with
      | zero => simp [hl1]
      | succ a => exact hget a
    · intro a i
      cases a with
      | zero => exact hz1 i
      | succ a => exact hz2 a i

/-- C8 counterexample: the claim quantifies over every joint count, but
the denoiser owns only 17 filters (`KalmanDenoiser(num_joints=17)` as
constructed by the service), so a single 18-joint frame raises
IndexError at `self.filters[joint_idx]` instead of returning an equal
shaped array. -/
theorem C8_eighteen_joints_raises :
    denoise_sequence3 17 [(List.range 18).map (fun j => ((j : ℚ), 0, 0))]
      none = none := by
  decide

/-- C8 (amended): for every input of shape (frames, joints, 3) with at
most 17 joints per frame (the denoiser's filter count) and a confidence
array covering every frame/joint index (or no confidence at all),
`denoise_sequence` succeeds with an output of identical shape whose z
coordinate everywhere equals the input's z coordinate. -/
theorem C8_denoise_preserves_z (kps : Seq3 K) (conf : Option (List (List K)))
    (hj : ∀ fr ∈ kps, fr.length ≤ 17)
    (hc : ∀ a fr, kps.get? a = some fr →
      ∀ i, i < fr.length → (confLookup conf a i).isSome) :
    ∃ out, denoise_sequence3 17 kps conf = some out ∧
      out.length = kps.length ∧
      (∀ a, (out.get? a).map List.length = (kps.get? a).map List.length) ∧
      ∀ a i, ((out.get? a).bind (fun ofr => ofr.get? i)).map (fun p => p.2.2) =
        ((kps.get? a).bind (fun ifr => ifr.get? i)).map (fun p => p.2.2) := by
  obtain ⟨outs, heq, h1, h2, h3⟩ :=
    denoiseSeqAux3_spec conf kps 0 (List.replicate 17 kfInit)
      (by simpa using hj)
      (fun a fr h i hi => by simpa using hc a fr h i hi)
  exact ⟨outs, heq, h1, h2, h3⟩

/-- Witness for C8 at a single 2-joint frame with no confidence. -/
theorem C8_denoise_preserves_z_witness :
    ∃ out, denoise_sequence3 17 [[((1 : ℚ), 2, 3), (4, 5, 6)]] none = some out ∧
      out.length = 1 ∧
      (∀ a, (out.get? a).map List.length =
        (([[((1 : ℚ), 2, 3), (4, 5, 6)]] : Seq3 ℚ).get? a).map List.length) ∧
      ∀ a i, ((out.get? a).bind (fun ofr => ofr.get? i)).map (fun p => p.2.2) =
        ((([[((1 : ℚ), 2, 3), (4, 5, 6)]] : Seq3 ℚ).get? a).bind
          (fun ifr => ifr.get? i)).map (fun p => p.2.2) :=
  C8_denoise_preserves_z [[((1 : ℚ), 2, 3), (4, 5, 6)]] none
    (by decide) (fun a fr h i hi => rfl)

/-! ### The broadcast failure inside detect_contact -/

/-- numpy refuses to broadcast two 1-D arrays whose lengths differ with
neither equal to one. -/
theorem broadcastAnd_none (a b : List Bool) (h1 : a.length ≠ b.length)
    (h2 : a.length ≠ 1) (h3 : b.length ≠ 1) : broadcastAnd a b = none := by
  unfold broadcastAnd
  rw [if_neg h1, if_neg h2, if_neg h3]

/-- The ground-plane resolution succeeds on rectangular 17-joint data
with at least one frame. -/
theorem resolveGround_isSome (st : Option K) (kps : Seq3 K)
    (hr : Rect kps 17) (hne : kps ≠ []) :
    ∃ g, resolveGround st kps = some g := by
  cases st with
  | some g => exact ⟨g, rfl⟩
  | none =>
    have hnj : numJoints kps = 17 := by
      cases kps with
      | nil => exact absurd rfl hne
      | cons fr rest => exact hr fr (List.mem_cons_self fr rest)
    have h15 := columnZ_ne_nil kps 15 17 hr hne (by omega)
    have hne2 : ((if 15 < numJoints kps then columnZ 15 kps else []) ++
        (if 16 < numJoints kps then columnZ 16 kps else [])).isEmpty = false := by
      rw [hnj, if_pos (by omega), if_pos (by omega)]
      cases hcc : columnZ 15 kps with
      | nil => exact absurd hcc h15
      | cons z zs => simp [hcc]
    simp only [resolveGround, estimate_ground_plane, hne2,
      Bool.false_eq_true, if_false]
    exact ⟨_, rfl⟩

/-- The off-by-one inside `detect_contact`: on rectangular 17-joint data
with n >= 3 frames, the velocity array (length n-1) cannot broadcast
against the ground-distance array (length n), so numpy raises. -/
theorem detect_contact_raises (st : Option K) (kps : Seq3 K) (t : K)
    (hr : Rect kps 17) (hn : 3 ≤ kps.length) :
    detect_contact st kps t = none := by
  have hne : kps ≠ [] := by
    intro h
    rw [h] at hn
    simp at hn
  have hnj : numJoints kps = 17 := by
    cases kps with
    | nil => exact absurd rfl hne
    | cons fr rest => exact hr fr (List.mem_cons_self fr rest)
  obtain ⟨g, hg⟩ := resolveGround_isSome st kps hr hne
  have hcol : (column 15 kps).length = kps.length :=
    column_length kps 15 17 hr (by omega)
  have hfoot : detectFoot st kps 15 t = none := by
    have ha : (List.map (fun v => decide (v < t ^ 2))
        (List.map (fun pq => dist3Sq pq.1 pq.2)
          (consecPairs (column 15 kps)))).length ≠
        (List.map (fun d => decide (d < 20))
          (List.map (fun p => |p.2.2 - g|) (column 15 kps))).length := by
      simp only [List.length_map, consecPairs_length, hcol]
      omega
    have hb : (List.map (fun v => decide (v < t ^ 2))
        (List.map (fun pq => dist3Sq pq.1 pq.2)
          (consecPairs (column 15 kps)))).length ≠ 1 := by
      simp only [List.length_map, consecPairs_length, hcol]
      omega
    have hc : (List.map (fun d => decide (d < 20))
        (List.map (fun p => |p.2.2 - g|) (column 15 kps))).length ≠ 1 := by
      simp only [List.length_map, hcol]
      omega
    have hbc := broadcastAnd_none _ _ ha hb hc
    unfold detectFoot
    rw [hg]
    simp only [hbc]
  unfold detect_contact
  rw [hnj, if_pos (by omega), hfoot]

/-- C2 (code bug): the documented contract of `detect_contact` - a
(frames, 2) boolean flag array as the claim describes - is never
delivered for two or more frames: the velocity array (length n-1) is
conjoined with the ground-distance array (length n), a numpy broadcast
error for n >= 3, and for n = 2 the broadcast stretches the length-1
velocity array to length 2 and the column write `contact_flags[1:, i]`
of one slot then fails.  Evaluated on concrete structurally valid
3-frame and 2-frame 17-joint sequences. -/
theorem C2_detect_contact_raises :
    detect_contact (none : Option ℚ)
      (List.replicate 3
        ((List.range 17).map (fun j => ((j : ℚ), (j : ℚ), (j : ℚ)))))
      50 = none ∧
    detect_contact (none : Option ℚ)
      (List.replicate 2
        ((List.range 17).map (fun j => ((j : ℚ), (j : ℚ), (j : ℚ)))))
      50 = none := by
  constructor <;> decide

/-! ### Shape transport to the pipeline raise (C1) -/

/-- Mapping a function over every joint of every frame preserves the
joint count. -/
theorem all_length_map_inner {α β : Type} (f : α → β) (l : List (List α))
    (t : ℕ) (h : ∀ fr ∈ l, fr.length = t) :
    ∀ fr ∈ l.map (List.map f), fr.length = t := by
  intro fr hf
  obtain ⟨fr0, hf0, rfl⟩ := List.mem_map.mp hf
  rw [List.length_map]
  exact h fr0 hf0

/-- Writing the denoised (x, y) slice back over the metric keypoints
keeps the joint count of every frame. -/
theorem recombine_all_length {t : ℕ} :
    ∀ (l1 : Seq3 K) (l2 : List (List (K × K))),
    (∀ fr ∈ l1, fr.length = t) → (∀ fr ∈ l2, fr.length = t) →
    ∀ fr ∈ List.zipWith
      (fun fr3 fr2 => List.zipWith (fun p q => (q.1, q.2, p.2.2)) fr3 fr2)
      l1 l2, fr.length = t := by
  intro l1
  induction l1 with
  | nil =>
    intro l2 _ _ fr h
    simp at h
  | cons a l1 ih =>
    intro l2 h1 h2 fr h
    cases l2 with
    | nil => simp at h
    | cons b l2 =>
      rw [List.zipWith_cons_cons] at h
      rcases List.mem_cons.mp h with h | h
      · subst h
        rw [List.length_zipWith]
        have ha := h1 a (List.mem_cons_self a l1)
        have hb := h2 b (List.mem_cons_self b l2)
        omega
      · exact ih l2 (fun fr hf => h1 fr (List.mem_cons_of_mem a hf))
          (fun fr hf => h2 fr (List.mem_cons_of_mem b hf)) fr h

/-- Transport per-frame joint counts along the get?-level length
equalities returned by the denoiser spec. -/
theorem all_length_of_get?_map_length {α β : Type} (out : List (List α))
    (src : List (List β)) (t : ℕ)
    (hmap : ∀ a, (out.get? a).map List.length = (src.get? a).map List.length)
    (hsrc : ∀ fr ∈ src, fr.length = t) : ∀ fr ∈ out, fr.length = t := by
  intro fr hf
  obtain ⟨a, ha⟩ := List.get?_of_mem hf
  have hm := hmap a
  rw [ha] at hm
  cases hs : src.get? a with
  | none =>
    rw [hs] at hm
    simp at hm
  | some fr2 =>
    rw [hs] at hm
    simp only [Option.map_some'] at hm
    have : fr.length = fr2.length := by
      injection hm
    rw [this]
    exact hsrc fr2 (List.get?_mem hs)

/-- Steps 2-3 of the pipeline raise for every rectangular 17-joint
input with at least 3 frames and covering confidence: the denoiser
succeeds and preserves the shape, and `detect_contact` then hits the
broadcast error. -/
theorem processSteps23_raises (scale : Option ℝ) (kpsMm : Seq3 ℝ)
    (rows : List (List ℝ)) (hr : Rect kpsMm 17) (hn : 3 ≤ kpsMm.length)
    (hcov : ∀ a, a < kpsMm.length → ∀ i, i < 17 →
      (confLookup (some rows) a i).isSome) :
    processSteps23 scale kpsMm (some rows) = none := by
  have hr2 : ∀ fr ∈ kpsMm.map (fun fr => fr.map (fun p => (p.1, p.2.1))),
      fr.length = 17 :=
    all_length_map_inner _ kpsMm 17 hr
  obtain ⟨den2, hden, hlen2, hmap2⟩ :=
    denoiseSeqAux2_spec (some rows)
      (kpsMm.map (fun fr => fr.map (fun p => (p.1, p.2.1)))) 0
      (List.replicate 17 kfInit)
      (fun fr hf => by rw [hr2 fr hf, List.length_replicate])
      (fun a fr hf i hi => by
        obtain ⟨hlt, -⟩ := List.get?_eq_some.mp hf
        rw [List.length_map] at hlt
        have h17 : fr.length = 17 := hr2 fr (List.get?_mem hf)
        rw [h17] at hi
        simpa using hcov a hlt i hi)
  have hrden : ∀ fr ∈ den2, fr.length = 17 :=
    all_length_of_get?_map_length den2 _ 17 hmap2 hr2
  have hdet : detect_contact (none : Option ℝ)
      (List.zipWith
        (fun fr3 fr2 => List.zipWith (fun p q => (q.1, q.2, p.2.2)) fr3 fr2)
        kpsMm den2) 50 = none := by
    refine detect_contact_raises none _ 50
      (recombine_all_length kpsMm den2 hr hrden) ?_
    rw [List.length_zipWith, hlen2, List.length_map]
    omega
  unfold processSteps23 denoise_sequence2
  simp only [hden, hdet]

/-- Python `process_keypoints` raises for every rectangular 17-joint input with
at least 3 frames and covering confidence, whatever the calibrator state
and whatever the anthropometric calibration computes: the metric
conversion preserves the shape and steps 2-3 then raise. -/
theorem process_keypoints_raises (kps : Seq3 ℝ) (rows : List (List ℝ))
    (calibSt : ScaleCalibratorState ℝ) (hr : Rect kps 17)
    (hn : 3 ≤ kps.length)
    (hcov : ∀ a, a < kps.length → ∀ i, i < 17 →
      (confLookup (some rows) a i).isSome) :
    process_keypoints kps (some rows) calibSt = none := by
  have key : ∀ (sc : Option ℝ) (kpsMm : Seq3 ℝ),
      (kpsMm = kps ∨ ∃ s, kpsMm = kps.map
        (fun fr => fr.map (fun p => (p.1 * s, p.2.1 * s, p.2.2 * s)))) →
      processSteps23 sc kpsMm (some rows) = none := by
    rintro sc kpsMm (rfl | ⟨s, rfl⟩)
    · exact processSteps23_raises sc _ rows hr hn hcov
    · refine processSteps23_raises sc _ rows ?_ ?_ ?_
      · exact all_length_map_inner _ kps 17 hr
      · rw [List.length_map]
        exact hn
      · intro a ha i hi
        rw [List.length_map] at ha
        exact hcov a ha i hi
  unfold process_keypoints
  rcases hcs : calibSt.scale_factor with _ | s
  · simp only [hcs]
    rcases hca : calibrate_from_anthropometry kps none with _ | v
    · simp only [hca]
      exact key none kps (Or.inl rfl)
    · simp only [hca]
      by_cases hv : v ≠ 0
      · rw [if_pos hv]
        exact key (some v) _ (Or.inr ⟨v, rfl⟩)
      · rw [if_neg hv]
        exact key (some v) kps (Or.inl rfl)
  · simp only [hcs]
    by_cases hv : s ≠ 0
    · rw [if_pos hv]
      exact key (some s) _ (Or.inr ⟨s, rfl⟩)
    · rw [if_neg hv]
      exact key (some s) kps (Or.inl rfl)

/-- C1 (code bug): a structurally valid input - 3 frames in the
17-joint layout with a matching all-ones confidence array, fed to a
fresh service - makes the core pipeline raise instead of degrading
gracefully: `process_keypoints` reaches `detect_contact`, whose
velocity/ground-distance broadcast fails for any sequence of 3 or more
frames (and the flag-column write fails for 2). -/
theorem C1_pipeline_raises :
    process_keypoints
      (List.replicate 3
        ((List.range 17).map (fun (j : ℕ) => ((j : ℝ), (j : ℝ), (j : ℝ)))))
      (some (List.replicate 3 (List.replicate 17 (1 : ℝ))))
      scaleCalibratorInit = none := by
  refine process_keypoints_raises _ _ _ ?_ ?_ ?_
  · intro fr hf
    rw [List.eq_of_mem_replicate hf, List.length_map, List.length_range]
  · rw [List.length_replicate]
  · decide

/-! ### Pointwise behaviour of the contact constraint (C6, C10) -/

/-- Exact pointwise description of `setZ`. -/
theorem setZ_get? (j : ℕ) (g : K) (fr : Frame K) (i : ℕ) :
    (setZ j g fr).get? i =
      (fr.get? i).map (fun p => if i = j then (p.1, p.2.1, g) else p) := by
  unfold setZ
  cases hj : fr.get? j with
  | none =>
    by_cases h : i = j
    · subst h
      rw [hj]
      rfl
    · cases hi : fr.get? i with
      | none => rfl
      | some p => simp [h]
  | some q =>
    by_cases h : i = j
    · subst h
      rw [List.get?_set_eq, hj]
      simp
    · rw [List.get?_set_ne _ _ (fun hh => h hh.symm)]
      cases hi : fr.get? i with
      | none => rfl
      | some p => simp [h]

/-- Python `setZ` does not change the joint count. -/
theorem setZ_length (j : ℕ) (g : K) (fr : Frame K) :
    (setZ j g fr).length = fr.length := by
  unfold setZ
  cases fr.get? j with
  | none => rfl
  | some q => exact List.length_set fr j _

/-- Exact pointwise description of one foot of the constraint loop:
the z coordinate is clamped at the ankle (and its toe proxy, when in
shape) exactly when the joint is in shape and the foot is flagged. -/
theorem applyFoot_get? (g : K) (nj ankle : ℕ) (flag : Bool) (fr : Frame K)
    (i : ℕ) :
    (applyFoot g nj ankle flag fr).get? i =
      (fr.get? i).map (fun p => (p.1, p.2.1,
        if flag = true ∧ ankle < nj ∧
            (i = ankle ∨ (i = ankle - 2 ∧ ankle - 2 < nj))
        then g else p.2.2)) := by
  unfold applyFoot
  by_cases h1 : ankle < nj
  · rw [if_pos h1]
    cases flag with
    | false =>
      rw [if_neg Bool.false_ne_true]
      cases hi : fr.get? i with
      | none => rfl
      | some p =>
        simp only [Option.map_some']
        rw [if_neg (fun hh => Bool.false_ne_true hh.1)]
    | true =>
      rw [if_pos rfl]
      by_cases h2 : ankle - 2 < nj
      · rw [if_pos h2, setZ_get?, setZ_get?, Option.map_map]
        cases hi : fr.get? i with
        | none => rfl
        | some p =>
          simp only [Option.map_some', Function.comp]
          by_cases e1 : i = ankle - 2
          · by_cases e2 : i = ankle
            · have e3 : ankle - 2 = ankle := by omega
              simp [e1, e2, e3, h1, h2]
            · have e3 : ¬ (ankle - 2 = ankle) := fun hh => e2 (e1.trans hh)
              simp [e1, e2, e3, h1, h2]
          · by_cases e2 : i = ankle
            · simp [e1, e2, h1, h2]
            · simp [e1, e2, h1, h2]
      · rw [if_neg h2, setZ_get?]
        cases hi : fr.get? i with
        | none => rfl
        | some p =>
          simp only [Option.map_some']
          by_cases e2 : i = ankle
          · simp [e2, h1, h2]
          · simp [e2, h1, h2]
  · rw [if_neg h1]
    cases hi : fr.get? i with
    | none => rfl
    | some p =>
      simp only [Option.map_some']
      rw [if_neg (fun hh => h1 hh.2.1)]

/-- Exact pointwise description of the per-frame constraint body:
z is clamped to the ground at joints 16/14 when the right foot is
flagged and at joints 15/13 when the left foot is flagged (with the
shape checks of the source); everything else - every x, every y, every
other joint - is returned unchanged. -/
theorem constrainFrame_get? (g : K) (nj : ℕ) (fl : Bool × Bool)
    (fr : Frame K) (i : ℕ) :
    (constrainFrame g nj fl fr).get? i =
      (fr.get? i).map (fun p => (p.1, p.2.1,
        if (fl.2 = true ∧ 16 < nj ∧ (i = 16 ∨ (i = 14 ∧ 14 < nj))) ∨
            (fl.1 = true ∧ 15 < nj ∧ (i = 15 ∨ (i = 13 ∧ 13 < nj)))
        then g else p.2.2)) := by
  unfold constrainFrame
  rw [applyFoot_get?, applyFoot_get?, Option.map_map]
  cases hi : fr.get? i with
  | none => rfl
  | some p =>
    simp only [Option.map_some', Function.comp]
    have h1614 : (16 : ℕ) - 2 = 14 := rfl
    have h1513 : (15 : ℕ) - 2 = 13 := rfl
    rw [h1614, h1513]
    by_cases c2 : fl.2 = true ∧ 16 < nj ∧ (i = 16 ∨ (i = 14 ∧ 14 < nj)) <;>
      by_cases c1 : fl.1 = true ∧ 15 < nj ∧ (i = 15 ∨ (i = 13 ∧ 13 < nj)) <;>
        simp [c1, c2]

/-- The per-frame constraint body preserves the joint count. -/
theorem constrainFrame_length (g : K) (nj : ℕ) (fl : Bool × Bool)
    (fr : Frame K) : (constrainFrame g nj fl fr).length = fr.length := by
  unfold constrainFrame applyFoot
  repeat' split
  all_goals simp [setZ_length]

/-- The per-frame constraint body is idempotent: re-clamping already
clamped joints to the same ground value changes nothing. -/
theorem constrainFrame_idem (g : K) (nj : ℕ) (fl : Bool × Bool)
    (fr : Frame K) :
    constrainFrame g nj fl (constrainFrame g nj fl fr) =
      constrainFrame g nj fl fr := by
  apply List.ext
  intro i
  rw [constrainFrame_get?, constrainFrame_get?, Option.map_map]
  cases hi : fr.get? i with
  | none => rfl
  | some p =>
    simp only [Option.map_some', Function.comp]
    by_cases c : (fl.2 = true ∧ 16 < nj ∧ (i = 16 ∨ (i = 14 ∧ 14 < nj))) ∨
        (fl.1 = true ∧ 15 < nj ∧ (i = 15 ∨ (i = 13 ∧ 13 < nj))) <;>
      simp [c]

/-- A successful per-frame constraint step preserves the joint count. -/
theorem constrainFrameOpt_length (st : Option K) (nj : ℕ)
    (flag : Option (Bool × Bool)) (fr fr2 : Frame K)
    (h : constrainFrameOpt st nj flag fr = some fr2) :
    fr2.length = fr.length := by
  unfold constrainFrameOpt at h
  by_cases h15 : 15 < nj
  · rw [if_pos h15] at h
    rcases flag with _ | fl
    · simp at h
    · rcases st with _ | g
      · simp at h
      · injection h with h
        rw [← h, constrainFrame_length]
  · rw [if_neg h15] at h
    injection h with h
    rw [← h]

/-- A successful per-frame constraint step absorbs itself. -/
theorem constrainFrameOpt_idem (st : Option K) (nj : ℕ)
    (flag : Option (Bool × Bool)) (fr fr2 : Frame K)
    (h : constrainFrameOpt st nj flag fr = some fr2) :
    constrainFrameOpt st nj flag fr2 = some fr2 := by
  unfold constrainFrameOpt at h ⊢
  by_cases h15 : 15 < nj
  · rw [if_pos h15] at h ⊢
    rcases flag with _ | fl
    · simp at h
    · rcases st with _ | g
      · simp at h
      · show some (constrainFrame g nj fl fr2) = some fr2
        injection h with h
        rw [← h, constrainFrame_idem]
  · rw [if_neg h15] at h ⊢

/-- The frame loop of `apply_contact_constraints` absorbs itself:
a second pass over its own successful output reproduces it. -/
theorem mapM_constrain_idem (st : Option K) (nj : ℕ)
    (fl : List (Bool × Bool)) :
    ∀ (kps out : Seq3 K) (f0 : ℕ),
    ((kps.enumFrom f0).mapM
      (fun p => constrainFrameOpt st nj (fl.get? p.1) p.2)) = some out →
    ((out.enumFrom f0).mapM
      (fun p => constrainFrameOpt st nj (fl.get? p.1) p.2)) = some out := by
  intro kps
  induction kps with
  | nil =>
    intro out f0 h
    simp only [List.enumFrom, List.mapM_nil, Option.pure_def] at h
    injection h with h
    rw [← h]
    rfl
  | cons fr rest ih =>
    intro out f0 h
    simp only [List.enumFrom, List.mapM_cons, Option.bind_eq_bind,
      Option.pure_def] at h
    cases hfr : constrainFrameOpt st nj (fl.get? f0) fr with
    | none =>
      rw [hfr, Option.none_bind] at h
      exact Option.noConfusion h
    | some fr2 =>
      rw [hfr, Option.some_bind] at h
      cases hrest : (rest.enumFrom (f0 + 1)).mapM
          (fun p => constrainFrameOpt st nj (fl.get? p.1) p.2) with
      | none =>
        rw [hrest, Option.none_bind] at h
        exact Option.noConfusion h
      | some rest2 =>
        rw [hrest, Option.some_bind] at h
        injection h with h
        rw [← h]
        simp only [List.enumFrom, List.mapM_cons, Option.bind_eq_bind,
          Option.pure_def,
          constrainFrameOpt_idem st nj (fl.get? f0) fr fr2 hfr,
          ih rest2 (f0 + 1) hrest, Option.some_bind]

/-- Frame count preservation along the frame loop. -/
theorem mapM_constrain_length (st : Option K) (nj : ℕ)
    (fl : List (Bool × Bool)) :
    ∀ (kps out : Seq3 K) (f0 : ℕ),
    ((kps.enumFrom f0).mapM
      (fun p => constrainFrameOpt st nj (fl.get? p.1) p.2)) = some out →
    out.length = kps.length ∧
    (out.get? 0).map List.length = (kps.get? 0).map List.length := by
  intro kps
  induction kps with
  | nil =>
    intro out f0 h
    simp only [List.enumFrom, List.mapM_nil, Option.pure_def] at h
    injection h with h
    rw [← h]
    exact ⟨rfl, rfl⟩
  | cons fr rest ih =>
    intro out f0 h
    simp only [List.enumFrom, List.mapM_cons, Option.bind_eq_bind,
      Option.pure_def] at h
    cases hfr : constrainFrameOpt st nj (fl.get? f0) fr with
    | none =>
      rw [hfr, Option.none_bind] at h
      exact Option.noConfusion h
    | some fr2 =>
      rw [hfr, Option.some_bind] at h
      cases hrest : (rest.enumFrom (f0 + 1)).mapM
          (fun p => constrainFrameOpt st nj (fl.get? p.1) p.2) with
      | none =>
        rw [hrest, Option.none_bind] at h
        exact Option.noConfusion h
      | some rest2 =>
        rw [hrest, Option.some_bind] at h
        injection h with h
        rw [← h]
        have hlen := (ih rest2 (f0 + 1) hrest).1
        constructor
        · simp [hlen]
        · simp [constrainFrameOpt_length st nj (fl.get? f0) fr fr2 hfr]

/-- Same frame count and same first-frame joint count give the same
numpy joint-axis shape. -/
theorem numJoints_eq_of (l1 l2 : Seq3 K) (hlen : l1.length = l2.length)
    (hhead : (l1.get? 0).map List.length = (l2.get? 0).map List.length) :
    numJoints l1 = numJoints l2 := by
  cases l1 with
  | nil =>
    cases l2 with
    | nil => rfl
    | cons b m => simp at hlen
  | cons a l =>
    cases l2 with
    | nil => simp at hlen
    | cons b m =>
      show a.length = b.length
      simpa using hhead

/-- If the ground estimate failed, no ankle joint is in shape. -/
theorem estimate_none_nj_le (kps : Seq3 K)
    (h : estimate_ground_plane kps = none) : ¬ 15 < numJoints kps := by
  intro h15
  cases kps with
  | nil => simp [numJoints] at h15
  | cons fr rest =>
    have hfl : 15 < fr.length := h15
    cases hg : fr.get? 15 with
    | none =>
      rw [List.get?_eq_none] at hg
      omega
    | some p =>
      simp only [estimate_ground_plane] at h
      rw [if_pos h15] at h
      simp only [columnZ, column, List.filterMap_cons, hg, List.map_cons,
        List.cons_append, List.isEmpty_cons] at h
      simp at h

/-- Re-resolving the ground on any sequence with the same joint-axis
shape is stable: once `ground_plane_z` is set it stays; if estimation
failed it fails again (no ankle joint in shape). -/
theorem resolveGround_stable (st : Option K) (kps out : Seq3 K)
    (hnj : numJoints out = numJoints kps) :
    resolveGround (resolveGround st kps) out = resolveGround st kps := by
  cases hrg : resolveGround st kps with
  | some g => rfl
  | none =>
    have hest : estimate_ground_plane kps = none := by
      cases st with
      | some g => exact Option.noConfusion hrg
      | none => exact hrg
    have h15 := estimate_none_nj_le kps hest
    show estimate_ground_plane out = none
    simp only [estimate_ground_plane]
    rw [hnj, if_neg h15,
      if_neg (show ¬ 16 < numJoints kps from fun h16 => h15 (by omega))]
    rfl

/-- Python `List.enum` entry point of `mapM_constrain_idem`. -/
theorem mapM_constrain_idem_enum (st : Option K) (nj : ℕ)
    (fl : List (Bool × Bool)) (kps out : Seq3 K)
    (h : kps.enum.mapM
      (fun p => constrainFrameOpt st nj (fl.get? p.1) p.2) = some out) :
    out.enum.mapM
      (fun p => constrainFrameOpt st nj (fl.get? p.1) p.2) = some out :=
  mapM_constrain_idem st nj fl kps out 0 h

/-- Python `List.enum` entry point of `mapM_constrain_length`. -/
theorem mapM_constrain_length_enum (st : Option K) (nj : ℕ)
    (fl : List (Bool × Bool)) (kps out : Seq3 K)
    (h : kps.enum.mapM
      (fun p => constrainFrameOpt st nj (fl.get? p.1) p.2) = some out) :
    out.length = kps.length ∧
    (out.get? 0).map List.length = (kps.get? 0).map List.length :=
  mapM_constrain_length st nj fl kps out 0 h

/-- C6: `apply_contact_constraints` is idempotent.  For every keypoint
sequence and every fixed contact-flag array (including the `None`
flags), re-applying the constraint - with the ground state the first
application left behind, exactly as a second call on the same service
object runs - to already-constrained keypoints reproduces them
exactly. -/
theorem C6_apply_contact_idempotent (st : Option K) (kps : Seq3 K)
    (flags : Option (List (Bool × Bool))) (st2 : Option K) (out : Seq3 K)
    (h : apply_contact_constraints st kps flags = some (st2, out)) :
    apply_contact_constraints st2 out flags = some (st2, out) := by
  unfold apply_contact_constraints at h ⊢
  cases flags with
  | none =>
    injection h with h
    have h1 : resolveGround st kps = st2 := congrArg Prod.fst h
    have h2 : kps = out := congrArg Prod.snd h
    subst h1
    subst h2
    rw [resolveGround_stable st kps kps rfl]
  | some fl =>
    cases hm : kps.enum.mapM
        (fun p => constrainFrameOpt (resolveGround st kps) (numJoints kps)
          (fl.get? p.1) p.2) with
    | none =>
      simp only [hm] at h
      exact Option.noConfusion h
    | some newOut =>
      simp only [hm] at h
      injection h with h
      have h1 : resolveGround st kps = st2 := congrArg Prod.fst h
      have h2 : newOut = out := congrArg Prod.snd h
      subst h1
      subst h2
      obtain ⟨hlen, hhead⟩ :=
        mapM_constrain_length_enum (resolveGround st kps) (numJoints kps)
          fl kps newOut hm
      have hnj : numJoints newOut = numJoints kps :=
        numJoints_eq_of newOut kps hlen hhead
      simp only [resolveGround_stable st kps newOut hnj, hnj,
        mapM_constrain_idem_enum (resolveGround st kps) (numJoints kps)
          fl kps newOut hm]

/-- Witness for C6: one 17-joint frame clamped to ground 2 with the
left foot in contact; re-application reproduces the output. -/
theorem C6_apply_contact_idempotent_witness :
    apply_contact_constraints (some (2 : ℚ))
      [List.replicate 17 ((0 : ℚ), 0, 5)] (some [(true, false)]) =
      some (some 2, [(List.range 17).map
        (fun (j : ℕ) => if j = 13 ∨ j = 15
          then ((0 : ℚ), 0, 2) else ((0 : ℚ), 0, 5))]) ∧
    apply_contact_constraints (some (2 : ℚ))
      [(List.range 17).map
        (fun (j : ℕ) => if j = 13 ∨ j = 15
          then ((0 : ℚ), 0, 2) else ((0 : ℚ), 0, 5))] (some [(true, false)]) =
      some (some 2, [(List.range 17).map
        (fun (j : ℕ) => if j = 13 ∨ j = 15
          then ((0 : ℚ), 0, 2) else ((0 : ℚ), 0, 5))]) := by
  have h : apply_contact_constraints (some (2 : ℚ))
      [List.replicate 17 ((0 : ℚ), 0, 5)] (some [(true, false)]) =
      some (some 2, [(List.range 17).map
        (fun (j : ℕ) => if j = 13 ∨ j = 15
          then ((0 : ℚ), 0, 2) else ((0 : ℚ), 0, 5))]) := by decide
  exact ⟨h, C6_apply_contact_idempotent _ _ _ _ _ h⟩

/-- Success and the exact per-frame effect of the constraint loop when
the ground is known and the flags cover the frames. -/
theorem constrain_mapM_spec (g : K) (nj : ℕ) (flags : List (Bool × Bool))
    (h15 : 15 < nj) :
    ∀ (kps : Seq3 K) (f0 : ℕ),
    (∀ idx, idx < kps.length → f0 + idx < flags.length) →
    ∃ out, ((kps.enumFrom f0).mapM
      (fun p => constrainFrameOpt (some g) nj (flags.get? p.1) p.2)) = some out ∧
      out.length = kps.length ∧
      ∀ idx, out.get? idx = (kps.get? idx).map
        (fun fr => constrainFrame g nj (flags.getD (f0 + idx) (false, false)) fr) := by
  intro kps
  induction kps with
  | nil =>
    intro f0 _
    exact ⟨[], rfl, rfl, fun idx => rfl⟩
  | cons fr rest ih =>
    intro f0 hcov
    have hf0 : f0 < flags.length := by
      have := hcov 0 (by simp)
      omega
    obtain ⟨fl0, hfl0⟩ : ∃ fl0, flags.get? f0 = some fl0 := by
      cases hh : flags.get? f0 with
      | none =>
        rw [List.get?_eq_none] at hh
        omega
      | some fl0 => exact ⟨fl0, rfl⟩
    have hstep : constrainFrameOpt (some g) nj (flags.get? f0) fr =
        some (constrainFrame g nj fl0 fr) := by
      unfold constrainFrameOpt
      rw [if_pos h15, hfl0]
    obtain ⟨out, hout, hlen, hidx⟩ := ih (f0 + 1) (fun idx hi => by
      have := hcov (idx + 1) (by simpa using Nat.succ_lt_succ hi)
      omega)
    refine ⟨constrainFrame g nj fl0 fr :: out, ?_, by simp [hlen], ?_⟩
    · simp only [List.enumFrom, List.mapM_cons, Option.bind_eq_bind,
        Option.pure_def, hstep, hout, Option.some_bind]
    · intro idx
      cases idx with
      | zero =>
        simp only [List.get?, Option.map_some']
        rw [Nat.add_zero, List.getD_eq_getD_get?, hfl0]
        rfl
      | succ idx =>
        have := hidx idx
        simp only [List.get?]
        rw [this, show f0 + 1 + idx = f0 + (idx + 1) by omega]

/-- C10: with a known ground plane g, a rectangular 17-joint sequence
and a flag row per frame, `apply_contact_constraints` succeeds, keeps
the frame count, and changes at most the z coordinates of joints
13/15 (left foot flagged) and 14/16 (right foot flagged), setting them
to g and leaving every x, every y and every other joint exactly as in
the input; the input itself is untouched (the source copies the array,
immediate in this functional embedding). -/
theorem C10_contact_constraint_frame_effect (g : K) (kps : Seq3 K)
    (flags : List (Bool × Bool)) (hr : Rect kps 17)
    (hfl : kps.length ≤ flags.length) :
    ∃ out, apply_contact_constraints (some g) kps (some flags) =
        some (some g, out) ∧
      out.length = kps.length ∧
      ∀ f i, (out.get? f).bind (fun fr => fr.get? i) =
        ((kps.get? f).bind (fun fr => fr.get? i)).map (fun p => (p.1, p.2.1,
          if ((flags.getD f (false, false)).2 = true ∧ (i = 16 ∨ i = 14)) ∨
              ((flags.getD f (false, false)).1 = true ∧ (i = 15 ∨ i = 13))
          then g else p.2.2)) := by
  cases kps with
  | nil =>
    refine ⟨[], rfl, rfl, fun f i => rfl⟩
  | cons fr0 rest =>
    have hnj : numJoints (fr0 :: rest) = 17 :=
      hr fr0 (List.mem_cons_self fr0 rest)
    have h15 : 15 < numJoints (fr0 :: rest) := by omega
    obtain ⟨out, hout, hlen, hidx⟩ :=
      constrain_mapM_spec g (numJoints (fr0 :: rest)) flags h15
        (fr0 :: rest) 0 (fun idx hi => by omega)
    refine ⟨out, ?_, hlen, ?_⟩
    · unfold apply_contact_constraints
      simp only [resolveGround, List.enum, hout]
    · intro f i
      rw [hidx f, Nat.zero_add]
      cases hkf : (fr0 :: rest).get? f with
      | none => rfl
      | some fr =>
        have hfr17 : fr.length = 17 := hr fr (List.get?_mem hkf)
        simp only [Option.map_some', Option.some_bind]
        rw [constrainFrame_get?, hnj]
        cases hfi : fr.get? i with
        | none => rfl
        | some p =>
          simp only [Option.map_some']
          have h16 : (16 : ℕ) < 17 := by omega
          have h14 : (14 : ℕ) < 17 := by omega
          have h15b : (15 : ℕ) < 17 := by omega
          have h13 : (13 : ℕ) < 17 := by omega
          simp [h16, h14, h15b, h13]

/-- Witness for C10: one 17-joint frame, right foot flagged, ground 0. -/
theorem C10_contact_constraint_frame_effect_witness :
    ∃ out, apply_contact_constraints ((some 0 : Option ℚ))
        [List.replicate 17 ((1 : ℚ), 2, 3)] (some [(false, true)]) =
        some (some 0, out) ∧
      out.length = 1 ∧
      ∀ f i, (out.get? f).bind (fun fr => fr.get? i) =
        ((([List.replicate 17 ((1 : ℚ), 2, 3)] : Seq3 ℚ).get? f).bind
          (fun fr => fr.get? i)).map (fun p => (p.1, p.2.1,
          if (([(false, true)].getD f (false, false)).2 = true ∧
                (i = 16 ∨ i = 14)) ∨
              (([(false, true)].getD f (false, false)).1 = true ∧
                (i = 15 ∨ i = 13))
          then (0 : ℚ) else p.2.2)) :=
  C10_contact_constraint_frame_effect 0 [List.replicate 17 ((1 : ℚ), 2, 3)]
    [(false, true)] (by decide) (by decide)

/-! ### Constant sequences produce no peaks and no motion (C5) -/

/-- Python `getD` into the array of a constant list. -/
theorem getD_replicate_toArray (v : K) (n i : ℕ) (hi : i < n) :
    (List.replicate n v).toArray.getD i 0 = v := by
  rw [Array.getD,
    dif_pos (show i < (List.replicate n v).toArray.size by simpa using hi)]
  simp

/-- The scan of `_local_maxima_1d` finds nothing in a constant signal:
no index is strictly above its left neighbour. -/
theorem lmAux_replicate (v : K) (n : ℕ) : ∀ (fuel i : ℕ), 1 ≤ i →
    lmAux (List.replicate n v).toArray i fuel = [] := by
  intro fuel
  induction fuel with
  | zero => intro i _; rfl
  | succ fuel ih =>
    intro i hi
    unfold lmAux
    by_cases hib : i < (List.replicate n v).toArray.size - 1
    · rw [if_pos hib]
      have hsz : (List.replicate n v).toArray.size = n := by simp
      have h1 : (List.replicate n v).toArray.getD (i - 1) 0 = v :=
        getD_replicate_toArray v n (i - 1) (by omega)
      have h2 : (List.replicate n v).toArray.getD i 0 = v :=
        getD_replicate_toArray v n i (by omega)
      rw [if_neg (by rw [h1, h2]; exact lt_irrefl v)]
      exact ih (i + 1) (by omega)
    · rw [if_neg hib]

/-- Python `_local_maxima_1d` of a constant signal is empty. -/
theorem localMaxima1d_replicate (v : K) (n : ℕ) :
    localMaxima1d (List.replicate n v).toArray = [] :=
  lmAux_replicate v n _ 1 (le_refl 1)

/-- Python `find_peaks` of a constant signal is empty, whatever the distance. -/
theorem find_peaks_replicate (v : K) (n dist : ℕ) :
    find_peaks (List.replicate n v) dist = [] := by
  unfold find_peaks
  rw [localMaxima1d_replicate]
  rfl

/-- A column of a constant sequence is constant. -/
theorem column_replicate (j : ℕ) (fr : Frame K) (p : Vec3 K) (n : ℕ)
    (h : fr.get? j = some p) :
    column j (List.replicate n fr) = List.replicate n p := by
  induction n with
  | zero => rfl
  | succ n ih =>
    simp only [List.replicate_succ, column, List.filterMap_cons, h]
    exact congrArg (List.cons p) ih

/-- The z column of a constant sequence is constant. -/
theorem columnZ_replicate (j : ℕ) (fr : Frame K) (p : Vec3 K) (n : ℕ)
    (h : fr.get? j = some p) :
    columnZ j (List.replicate n fr) = List.replicate n p.2.2 := by
  rw [columnZ, column_replicate j fr p n h, List.map_replicate]

/-- Last element of a nonempty constant list. -/
theorem getLast?_replicate {α : Type} (a : α) :
    ∀ (n : ℕ), 1 ≤ n → (List.replicate n a).getLast? = some a := by
  intro n
  induction n with
  | zero => intro h; omega
  | succ n ih =>
    intro _
    cases n with
    | zero => rfl
    | succ m =>
      rw [List.replicate_succ, List.replicate_succ, List.getLast?_cons_cons,
        ← List.replicate_succ]
      exact ih (by omega)

/-- C5: on a sequence of all-identical 17-joint frames (and any frame
rate whose peak-spacing parameters pass scipy's `distance >= 1`
validation, as the default 30 fps does), no heel strikes are detected
on the constant ankle-height signal, and gait speed, stride length and
cadence all evaluate to exactly 0. -/
theorem C5_constant_frames_zero_metrics (fps : ℝ) (fr : Frame ℝ) (n : ℕ)
    (hn : 1 ≤ n) (h17 : fr.length = 17)
    (hd1 : 1 ≤ pyInt (fps * (1 / 2))) (hd2 : 1 ≤ pyInt (fps * (3 / 10))) :
    ∃ ev, detect_gait_events fps (List.replicate n fr) = some ev ∧
      ev.left_heel_strike = [] ∧ ev.right_heel_strike = [] ∧
      calculate_gait_speed fps (List.replicate n fr) = some 0 ∧
      calculate_stride_length (List.replicate n fr) ev = 0 ∧
      calculate_cadence fps ev n = 0 := by
  obtain ⟨p15, hp15⟩ : ∃ p, fr.get? 15 = some p := by
    cases h : fr.get? 15 with
    | none => rw [List.get?_eq_none] at h; omega
    | some p => exact ⟨p, rfl⟩
  obtain ⟨p16, hp16⟩ : ∃ p, fr.get? 16 = some p := by
    cases h : fr.get? 16 with
    | none => rw [List.get?_eq_none] at h; omega
    | some p => exact ⟨p, rfl⟩
  obtain ⟨p11, hp11⟩ : ∃ p, fr.get? 11 = some p := by
    cases h : fr.get? 11 with
    | none => rw [List.get?_eq_none] at h; omega
    | some p => exact ⟨p, rfl⟩
  obtain ⟨p12, hp12⟩ : ∃ p, fr.get? 12 = some p := by
    cases h : fr.get? 12 with
    | none => rw [List.get?_eq_none] at h; omega
    | some p => exact ⟨p, rfl⟩
  have hcol15 := columnZ_replicate 15 fr p15 n hp15
  have hcol16 := columnZ_replicate 16 fr p16 n hp16
  refine ⟨{ left_heel_strike := []
            right_heel_strike := []
            left_toe_off := find_peaks (npDiff1 (List.replicate n p15.2.2))
              (pyInt (fps * (3 / 10)))
            right_toe_off := find_peaks (npDiff1 (List.replicate n p16.2.2))
              (pyInt (fps * (3 / 10))) },
        ?_, rfl, rfl, ?_, ?_, ?_⟩
  · simp only [detect_gait_events]
    rw [if_pos ⟨hd1, hd2⟩, hcol15, hcol16]
    simp only [List.map_replicate, find_peaks_replicate]
  · unfold calculate_gait_speed hip_center
    rw [column_replicate 11 fr p11 n hp11, column_replicate 12 fr p12 n hp12,
      List.zipWith_replicate, min_self]
    have hh : (List.replicate n
        (((p11.1 + p12.1) / 2, (p11.2.1 + p12.2.1) / 2,
          (p11.2.2 + p12.2.2) / 2) : Vec3 ℝ)).head? =
        some ((p11.1 + p12.1) / 2, (p11.2.1 + p12.2.1) / 2,
          (p11.2.2 + p12.2.2) / 2) := by
      cases n with
      | zero => omega
      | succ m => rfl
    have hl := getLast?_replicate
      ((((p11.1 + p12.1) / 2, (p11.2.1 + p12.2.1) / 2,
        (p11.2.2 + p12.2.2) / 2)) : Vec3 ℝ) n hn
    simp only [hh, hl, sub_self, abs_zero, zero_div, ite_self]
  · rfl
  · unfold calculate_cadence
    simp

/-- Witness for C5: three identical 17-joint frames at 30 fps. -/
theorem C5_constant_frames_zero_metrics_witness :
    ∃ ev, detect_gait_events (30 : ℝ)
        (List.replicate 3 (List.replicate 17 ((1 : ℝ), 2, 3))) = some ev ∧
      ev.left_heel_strike = [] ∧ ev.right_heel_strike = [] ∧
      calculate_gait_speed 30
        (List.replicate 3 (List.replicate 17 ((1 : ℝ), 2, 3))) = some 0 ∧
      calculate_stride_length
        (List.replicate 3 (List.replicate 17 ((1 : ℝ), 2, 3))) ev = 0 ∧
      calculate_cadence (30 : ℝ) ev 3 = 0 :=
  C5_constant_frames_zero_metrics 30 (List.replicate 17 ((1 : ℝ), 2, 3)) 3
    (by decide) (by decide)
    (by rw [pyInt, show (30 : ℝ) * (1 / 2) = ((15 : ℤ) : ℝ) by norm_num,
          Int.floor_intCast]
        decide)
    (by rw [pyInt, show (30 : ℝ) * (3 / 10) = ((9 : ℤ) : ℝ) by norm_num,
          Int.floor_intCast]
        decide)

/-- Witness for C7: five concrete check results with one failing check;
the gate refuses and carries the joined failure message. -/
theorem C7_quality_aggregation_witness :
    (gateFromChecks
      { frame_count := { status := QualityLevel.fail
                         message := "Insufficient frames: 29 < 30" }
        joint_confidence := { status := QualityLevel.pass, message := "ok" }
        missing_joints := { status := QualityLevel.pass, message := "ok" }
        anatomical_constraints := { status := QualityLevel.warning
                                    message := "Some anatomical violations: 2" }
        temporal_consistency := { status := QualityLevel.pass, message := "ok" }
        }).2 =
      some "frame_count: Insufficient frames: 29 < 30" :=
  ((C7_quality_aggregation _).2.2.2.2.2 (by decide)).trans (by decide)

end GaitModel
